import Mathlib

/-!
Verification development for the RapidTools Validation API
(`builder-rapidtools/validation-api`).

The TypeScript sources are shallowly embedded into Lean:

* `stableStringify` (src/utils/stable-stringify.ts) over a JSON-like value
  type `JValue`;
* the GA4 CSV validation engine `validateGA4CSV`
  (src/validators/csv-ga4.ts), including its helpers `decodeContent`,
  `parseCSV`, `isValidDate`, `isNonNegativeInteger`;
* the fingerprinting and idempotency middleware
  (src/middleware/idempotency.ts, both versions present in the sources),
  over a key-value store modelled as an association list;
* the orchestrating `fetch` handler of src/backend/src/index.ts
  (`performValidation` and the idempotent request path, named `handle`).

JavaScript strings are modelled by Lean `String`; all string machinery
(split, trim, code-unit comparison) is re-implemented structurally over
`List Char` so that every definition evaluates by kernel reduction.
JavaScript exceptions are modelled with `Except`/`Option`.
JavaScript numbers are modelled by `Int` (all numbers the program
manipulates are integers; the one place where 64-bit floating point is
observable, `isNonNegativeInteger`, is discussed at its definition).
-/

/-! ### Character and string utilities (JS semantics) -/

/-- Is `c` an ASCII decimal digit (`\d` for the ASCII-only regexes used by
the validator)? -/
def isDigitChar (c : Char) : Bool :=
  48 ≤ c.toNat && c.toNat ≤ 57

/-- The characters removed by JavaScript `String.prototype.trim`:
WhiteSpace (tab, VT, FF, space, NBSP, BOM, Unicode Zs) and
LineTerminator (LF, CR, LS, PS). -/
def jsIsWhite (c : Char) : Bool :=
  c.toNat == 9 || c.toNat == 10 || c.toNat == 11 || c.toNat == 12 ||
  c.toNat == 13 || c.toNat == 32 || c.toNat == 160 || c.toNat == 0xfeff ||
  c.toNat == 0x1680 || (0x2000 ≤ c.toNat && c.toNat ≤ 0x200a) ||
  c.toNat == 0x2028 || c.toNat == 0x2029 || c.toNat == 0x202f ||
  c.toNat == 0x205f || c.toNat == 0x3000

/-- `String.prototype.split(sep)` for a one-character separator, on char
lists.  Splitting the empty list yields `[[]]`, exactly as in JS
(`"".split(x) == [""]`). -/
def splitChar (sep : Char) : List Char → List (List Char)
  | [] => [[]]
  | c :: rest =>
    match splitChar sep rest with
    | [] => [[c]]
    | h :: t => if c == sep then [] :: h :: t else (c :: h) :: t

/-- JS `trim` on a char list: drop `jsIsWhite` characters from both ends. -/
def jsTrimChars (l : List Char) : List Char :=
  ((l.dropWhile jsIsWhite).reverse.dropWhile jsIsWhite).reverse

/-- JS `trim` on strings. -/
def jsTrim (s : String) : String :=
  ⟨jsTrimChars s.data⟩

/-- Does `s` start with `p`?  (JS `String.prototype.startsWith`.) -/
def strStarts (s p : String) : Bool :=
  p.data.isPrefixOf s.data

/-- Drop the first `n` characters of `s` (JS `substring(n)`). -/
def strDrop (s : String) (n : Nat) : String :=
  ⟨s.data.drop n⟩

/-- Concatenate a list of strings with separator `sep`
(JS `Array.prototype.join`). -/
def joinSep (sep : String) : List String → String
  | [] => ""
  | [s] => s
  | s :: rest => s ++ sep ++ joinSep sep rest

/-- Numeric value of a list of ASCII digit characters (most significant
first). -/
def natOfDigits : List Char → Nat → Nat
  | [], acc => acc
  | c :: rest, acc => natOfDigits rest (acc * 10 + (c.val.toNat - 48))

/-- Canonical decimal digits of a natural number, most significant first
(the output of `Number.prototype.toString` on an integer value), fuelled
so the recursion is structural; every division by 10 shrinks the value,
so fuel = n + 1 always suffices. -/
def natToDecAux : Nat → Nat → List Char
  | 0, _ => []
  | fuel + 1, n =>
    if n < 10 then [Nat.digitChar n]
    else natToDecAux fuel (n / 10) ++ [Nat.digitChar (n % 10)]

/-- Canonical decimal rendering of a natural number. -/
def natToDec (n : Nat) : List Char :=
  natToDecAux (n + 1) n

/-- Lexicographic comparison of char lists by code point, the order JS
`Array.prototype.sort()` uses for strings (code points and UTF-16 code
units agree on the Basic Multilingual Plane, which covers every string
this program compares). -/
def charsLe : List Char → List Char → Bool
  | [], _ => true
  | _ :: _, [] => false
  | a :: as, b :: bs =>
    if a.toNat < b.toNat then true
    else if b.toNat < a.toNat then false
    else charsLe as bs

/-- String comparison by code point (JS default sort order). -/
def strLe (a b : String) : Bool :=
  charsLe a.data b.data

/-- `strLe` as a relation, for use with `List.insertionSort`. -/
def StrLeR (a b : String) : Prop := strLe a b = true

instance : DecidableRel StrLeR := fun a b => by
  unfold StrLeR; infer_instance

/-- Sort a list of strings in JS default sort order. -/
def sortStrings (l : List String) : List String :=
  l.insertionSort StrLeR

/-! ### `charsLe` is a total preorder, antisymmetric -/

theorem charsLe_cons (a b : Char) (as bs : List Char) :
    charsLe (a :: as) (b :: bs) =
      if a.toNat < b.toNat then true
      else if b.toNat < a.toNat then false
      else charsLe as bs := rfl

theorem charsLe_total : ∀ a b : List Char, charsLe a b = true ∨ charsLe b a = true := by
  intro a
  induction a with
  | nil => intro b; left; rfl
  | cons c as ih =>
    intro b
    cases b with
    | nil => right; rfl
    | cons d bs =>
      rw [charsLe_cons, charsLe_cons]
      rcases Nat.lt_trichotomy c.toNat d.toNat with h | h | h
      · left; rw [if_pos h]
      · rw [if_neg (by omega), if_neg (by omega), if_neg (by omega), if_neg (by omega)]
        exact ih bs
      · right; rw [if_pos h]

theorem charsLe_antisymm : ∀ a b : List Char,
    charsLe a b = true → charsLe b a = true → a = b := by
  intro a
  induction a with
  | nil =>
    intro b _ hba
    cases b with
    | nil => rfl
    | cons d bs => exact absurd hba (by simp [charsLe])
  | cons c as ih =>
    intro b hab hba
    cases b with
    | nil => exact absurd hab (by simp [charsLe])
    | cons d bs =>
      rw [charsLe_cons] at hab hba
      rcases Nat.lt_trichotomy c.toNat d.toNat with h | h | h
      · rw [if_neg (by omega), if_pos h] at hba; exact absurd hba (by simp)
      · rw [if_neg (by omega), if_neg (by omega)] at hab hba
        have hcd : c = d := Char.ext (UInt32.ext h)
        rw [hcd, ih bs hab hba]
      · rw [if_neg (by omega), if_pos h] at hab; exact absurd hab (by simp)

theorem charsLe_trans : ∀ a b c : List Char,
    charsLe a b = true → charsLe b c = true → charsLe a c = true := by
  intro a
  induction a with
  | nil => intro b c _ _; rfl
  | cons x as ih =>
    intro b c hab hbc
    cases b with
    | nil => exact absurd hab (by simp [charsLe])
    | cons y bs =>
      cases c with
      | nil => exact absurd hbc (by simp [charsLe])
      | cons z cs =>
        rw [charsLe_cons] at hab hbc ⊢
        rcases Nat.lt_trichotomy x.toNat y.toNat with h1 | h1 | h1
        · rcases Nat.lt_trichotomy y.toNat z.toNat with h2 | h2 | h2
          · rw [if_pos (by omega)]
          · rw [if_pos (by omega)]
          · rw [if_neg (by omega), if_pos h2] at hbc; exact absurd hbc (by simp)
        · rw [if_neg (by omega), if_neg (by omega)] at hab
          rcases Nat.lt_trichotomy y.toNat z.toNat with h2 | h2 | h2
          · rw [if_pos (by omega)]
          · rw [if_neg (by omega), if_neg (by omega)] at hbc
            rw [if_neg (by omega), if_neg (by omega)]
            exact ih bs cs hab hbc
          · rw [if_neg (by omega), if_pos h2] at hbc; exact absurd hbc (by simp)
        · rw [if_neg (by omega), if_pos h1] at hab; exact absurd hab (by simp)

instance : IsTotal String StrLeR :=
  ⟨fun a b => charsLe_total a.data b.data⟩

instance : IsTrans String StrLeR :=
  ⟨fun a b c => charsLe_trans a.data b.data c.data⟩

theorem strLe_antisymm {a b : String} (hab : strLe a b = true)
    (hba : strLe b a = true) : a = b := by
  cases a; cases b
  exact congrArg String.mk (charsLe_antisymm _ _ hab hba)

/-! ### JSON-like values

JavaScript plain values, as handled by `stableStringify`
(src/utils/stable-stringify.ts).  Objects and arrays are given their own
list-like types so that every function over them is compiled by structural
recursion (and hence evaluates inside the kernel).  Numbers are modelled
by `Int` (see the header comment). -/

mutual

inductive JValue where
  | jnull
  | jundefined
  | jbool (b : Bool)
  | jnum (n : Int)
  | jstr (s : String)
  | jarr (xs : JArr)
  | jobj (fs : JObj)

inductive JArr where
  | nil
  | cons (v : JValue) (rest : JArr)

inductive JObj where
  | nil
  | cons (k : String) (v : JValue) (rest : JObj)

end

/-- The fields of a JS object, as an association list (construction
order).  A genuine JS object never has two fields with the same key. -/
def JObj.toList : JObj → List (String × JValue)
  | .nil => []
  | .cons k v rest => (k, v) :: rest.toList

/-- `JSON.stringify` of a JS string: quote and escape.  Escapes the
double quote, the backslash, the named control escapes and other control
characters (as `\u00XX`), exactly as JSON.stringify does. -/
def jsonEscapeChar (c : Char) : List Char :=
  if c = '"' then ['\\', '"']
  else if c = '\\' then ['\\', '\\']
  else if c.toNat == 8 then ['\\', 'b']
  else if c.toNat == 9 then ['\\', 't']
  else if c.toNat == 10 then ['\\', 'n']
  else if c.toNat == 12 then ['\\', 'f']
  else if c.toNat == 13 then ['\\', 'r']
  else if c.toNat < 32 then
    ['\\', 'u', '0', '0',
     (Nat.digitChar (c.toNat / 16)), (Nat.digitChar (c.toNat % 16))]
  else [c]

/-- `JSON.stringify` applied to a string value. -/
def jsonQuote (s : String) : String :=
  ⟨'"' :: (s.data.flatMap jsonEscapeChar) ++ ['"']⟩

/-- `JSON.stringify` of a number (all numbers in this model are
integers, rendered in decimal). -/
def jsNumToString (n : Int) : String := n.repr

/-- Order on rendered object entries: by key, in JS default sort order. -/
def PairLeR (a b : String × String) : Prop := strLe a.1 b.1 = true

instance : DecidableRel PairLeR := fun a b => by
  unfold PairLeR; infer_instance

instance : IsTotal (String × String) PairLeR :=
  ⟨fun a b => charsLe_total a.1.data b.1.data⟩

instance : IsTrans (String × String) PairLeR :=
  ⟨fun a b c => charsLe_trans a.1.data b.1.data c.1.data⟩

/-- Render a sorted list of (key, rendered value) pairs as a JSON object
body: quoted key, colon, value, comma-joined. -/
def renderObjEntries (l : List (String × String)) : String :=
  joinSep "," (l.map fun p => jsonQuote p.1 ++ ":" ++ p.2)

mutual

/-- `stableStringify` (src/utils/stable-stringify.ts): deterministic JSON
stringification; object keys are sorted (JS default sort order = by code
unit).  The source sorts `Object.keys(obj)` and then renders each looked-up
value; here the (key, rendered value) pairs are rendered first and then
sorted by key, which produces the same string because a JS object's keys
are distinct (sorting by key then moves whole entries exactly as the
source's key sort does). -/
def stableStringify : JValue → String
  | .jnull => "null"
  | .jundefined => "undefined"
  | .jbool b => if b then "true" else "false"
  | .jnum n => jsNumToString n
  | .jstr s => jsonQuote s
  | .jarr xs => "[" ++ joinSep "," (stableStringifyArr xs) ++ "]"
  | .jobj fs =>
      "\x7b" ++ renderObjEntries ((stableStringifyObj fs).insertionSort PairLeR) ++ "\x7d"

/-- Render each array element. -/
def stableStringifyArr : JArr → List String
  | .nil => []
  | .cons v rest => stableStringify v :: stableStringifyArr rest

/-- Render each object entry to (key, rendered value), in construction
order. -/
def stableStringifyObj : JObj → List (String × String)
  | .nil => []
  | .cons k v rest => (k, stableStringify v) :: stableStringifyObj rest

end

/-! ### `atob` and UTF-8 decoding (Web platform builtins)

`decodeContent` in src/validators/csv-ga4.ts uses the Workers builtins
`atob` and `TextDecoder`.  They are modelled here by their standard
semantics: forgiving-base64 decode (`none` = the `InvalidCharacterError`
that `atob` throws, which `validateGA4CSV` catches), and UTF-8 decode
with U+FFFD replacement (`TextDecoder` in its default non-fatal mode
never throws). -/

/-- Value of one base64 alphabet character. -/
def b64Val (c : Char) : Option Nat :=
  if 65 ≤ c.toNat && c.toNat ≤ 90 then some (c.toNat - 65)
  else if 97 ≤ c.toNat && c.toNat ≤ 122 then some (c.toNat - 71)
  else if 48 ≤ c.toNat && c.toNat ≤ 57 then some (c.toNat + 4)
  else if c = '+' then some 62
  else if c = '/' then some 63
  else none

/-- Map every character to its sextet; fails on the first character
outside the base64 alphabet. -/
def b64Sextets : List Char → Option (List Nat)
  | [] => some []
  | c :: rest =>
    match b64Val c, b64Sextets rest with
    | some v, some vs => some (v :: vs)
    | _, _ => none

/-- Reassemble sextets into bytes (a trailing group of 2 or 3 sextets
contributes 1 or 2 bytes; leftover bits are discarded, as in
forgiving-base64). -/
def b64Bytes : List Nat → List Nat
  | a :: b :: c :: d :: rest =>
    (a * 4 + b / 16) :: ((b % 16) * 16 + c / 4) :: ((c % 4) * 64 + d) :: b64Bytes rest
  | [a, b] => [a * 4 + b / 16]
  | [a, b, c] => [a * 4 + b / 16, (b % 16) * 16 + c / 4]
  | _ => []

/-- Strip up to two trailing `=` padding characters. -/
def b64StripPad (l : List Char) : List Char :=
  match l.reverse with
  | '=' :: '=' :: rest => rest.reverse
  | '=' :: rest => rest.reverse
  | _ => l

/-- `atob`: forgiving-base64 decode to a byte list, `none` on failure. -/
def atobBytes (s : String) : Option (List Nat) :=
  let l := s.data.filter fun c =>
    !(c.toNat == 9 || c.toNat == 10 || c.toNat == 12 || c.toNat == 13 || c.toNat == 32)
  let l := if l.length % 4 == 0 then b64StripPad l else l
  if l.length % 4 == 1 then none
  else (b64Sextets l).map b64Bytes

/-- U+FFFD, the replacement character. -/
def replChar : Char := Char.ofNat 0xfffd

/-- Is `b` a UTF-8 continuation byte? -/
def isCont (b : Nat) : Bool := 0x80 ≤ b && b ≤ 0xbf

/-- Lower/upper bound of the second byte given the lead byte (WHATWG
UTF-8 decoder; excludes overlong forms, surrogates, and values above
U+10FFFF). -/
def utf8Byte2Ok (lead b2 : Nat) : Bool :=
  if lead == 0xe0 then 0xa0 ≤ b2 && b2 ≤ 0xbf
  else if lead == 0xed then 0x80 ≤ b2 && b2 ≤ 0x9f
  else if lead == 0xf0 then 0x90 ≤ b2 && b2 ≤ 0xbf
  else if lead == 0xf4 then 0x80 ≤ b2 && b2 ≤ 0x8f
  else isCont b2

/-- UTF-8 decoding with replacement, fuelled so that the recursion is
structural (on the fuel) and kernel-reducible; every step consumes at
least one byte, so fuel = length never runs out. -/
def utf8DecodeF : Nat → List Nat → List Char
  | 0, _ => []
  | _ + 1, [] => []
  | fuel + 1, b :: rest =>
    if b ≤ 0x7f then Char.ofNat b :: utf8DecodeF fuel rest
    else if 0xc2 ≤ b && b ≤ 0xdf then
      match rest with
      | [] => [replChar]
      | b2 :: rest2 =>
        if isCont b2 then Char.ofNat ((b - 0xc0) * 64 + (b2 - 0x80)) :: utf8DecodeF fuel rest2
        else replChar :: utf8DecodeF fuel (b2 :: rest2)
    else if 0xe0 ≤ b && b ≤ 0xef then
      match rest with
      | [] => [replChar]
      | [b2] =>
        if utf8Byte2Ok b b2 then [replChar] else replChar :: utf8DecodeF fuel [b2]
      | b2 :: b3 :: rest3 =>
        if utf8Byte2Ok b b2 then
          if isCont b3 then
            Char.ofNat ((b - 0xe0) * 4096 + (b2 - 0x80) * 64 + (b3 - 0x80)) :: utf8DecodeF fuel rest3
          else replChar :: utf8DecodeF fuel (b3 :: rest3)
        else replChar :: utf8DecodeF fuel (b2 :: b3 :: rest3)
    else if 0xf0 ≤ b && b ≤ 0xf4 then
      match rest with
      | [] => [replChar]
      | [b2] =>
        if utf8Byte2Ok b b2 then [replChar] else replChar :: utf8DecodeF fuel [b2]
      | [b2, b3] =>
        if utf8Byte2Ok b b2 then
          if isCont b3 then [replChar] else replChar :: utf8DecodeF fuel [b3]
        else replChar :: utf8DecodeF fuel [b2, b3]
      | b2 :: b3 :: b4 :: rest4 =>
        if utf8Byte2Ok b b2 then
          if isCont b3 then
            if isCont b4 then
              Char.ofNat ((b - 0xf0) * 262144 + (b2 - 0x80) * 4096 +
                (b3 - 0x80) * 64 + (b4 - 0x80)) :: utf8DecodeF fuel rest4
            else replChar :: utf8DecodeF fuel (b4 :: rest4)
          else replChar :: utf8DecodeF fuel (b3 :: b4 :: rest4)
        else replChar :: utf8DecodeF fuel (b2 :: b3 :: b4 :: rest4)
    else replChar :: utf8DecodeF fuel rest

/-- UTF-8 decoding with replacement (`TextDecoder().decode`): on a
malformed sequence, emit U+FFFD and resume at the first byte that did not
fit the sequence. -/
def utf8Decode (bytes : List Nat) : List Char :=
  utf8DecodeF bytes.length bytes

/-! ### The GA4 CSV validation engine (src/validators/csv-ga4.ts) -/

/-- Finding severity. -/
inductive Level where
  | error
  | warning
deriving DecidableEq

/-- A validation finding (`ValidationFinding` in src/backend/src/types.ts). -/
structure Finding where
  level : Level
  code : String
  message : String
  pointer : Option JValue := none

/-- `summary` of a `ValidationSuccess`. -/
structure Summary where
  valid : Bool
  issues : Nat
  warnings : Nat
  rows : Nat

/-- `normalized.dateRange`. -/
structure DateRange where
  start : String
  «end» : String

/-- `normalized` projection of a `ValidationSuccess`. -/
structure Normalized where
  detectedHeaders : List String
  dateRange : Option DateRange := none

/-- Idempotency annotation attached to responses. -/
structure IdemInfo where
  key : String
  replayed : Bool

/-- `ValidationSuccess` (src/backend/src/types.ts); `ok: true` is implied
by the constructor. -/
structure ValidationSuccess where
  summary : Summary
  findings : List Finding
  normalized : Normalized
  idempotency : Option IdemInfo := none

/-- Typed validation options (`GA4ValidationOptions`).  The boolean
options are read through JS truthiness, so a plain `Bool` with default
`false` models `boolean | undefined`; `maxRows` keeps its
absent-vs-present distinction because the source applies `??`. -/
structure GA4Options where
  allowPageviewsMissing : Bool := false
  requireSortedByDateAsc : Bool := false
  allowDuplicateDates : Bool := false
  maxRows : Option Int := none

/-- `DEFAULT_MAX_ROWS`. -/
def DEFAULT_MAX_ROWS : Int := 100000

/-- `decodeContent`: strip a `base64:` or `text:` prefix; `none` models
the thrown error for an unknown prefix (and an `atob` failure, which the
same `try` block catches). -/
def decodeContent (content : String) : Option String :=
  if strStarts content "base64:" then
    (atobBytes (strDrop content 7)).map fun bytes => ⟨utf8Decode bytes⟩
  else if strStarts content "text:" then
    some (strDrop content 5)
  else
    none

/-- `parseCSV`: trim, split into lines on `\n`, split each line on `,`,
trim each cell. -/
def parseCSV (csvText : String) : List (List String) :=
  (splitChar '\n' (jsTrim csvText).data).map fun line =>
    (splitChar ',' line).map fun cell => ⟨jsTrimChars cell⟩

/-- Does `s` match `/^\d{4}-\d{2}-\d{2}$/`? -/
def matchesDateRegex (s : String) : Bool :=
  match s.data with
  | [y1, y2, y3, y4, d1, m1, m2, d2, dd1, dd2] =>
    isDigitChar y1 && isDigitChar y2 && isDigitChar y3 && isDigitChar y4 &&
    d1 == '-' && isDigitChar m1 && isDigitChar m2 &&
    d2 == '-' && isDigitChar dd1 && isDigitChar dd2
  | _ => false

/-- Is `y` a (proleptic Gregorian) leap year? -/
def isLeapYear (y : Nat) : Bool :=
  (y % 4 == 0 && y % 100 != 0) || y % 400 == 0

/-- Days in month `m` of year `y`. -/
def daysInMonth (y m : Nat) : Nat :=
  if m == 2 then (if isLeapYear y then 29 else 28)
  else if m == 4 || m == 6 || m == 9 || m == 11 then 30
  else 31

/-- `isValidDate`: the regex test, then `new Date(s).toISOString()`.
For a regex-matching string, ECMAScript parses it as an ISO date and
yields an *Invalid Date* when the month or day is out of range; calling
`toISOString()` on an Invalid Date **throws** a `RangeError`, modelled by
`Except.error ()`.  For an in-range date the round-trip succeeds and
`startsWith` holds, so the result is `true`. -/
def isValidDate (s : String) : Except Unit Bool :=
  if !matchesDateRegex s then .ok false
  else
    match s.data with
    | [y1, y2, y3, y4, _, m1, m2, _, dd1, dd2] =>
      let y := natOfDigits [y1, y2, y3, y4] 0
      let m := natOfDigits [m1, m2] 0
      let d := natOfDigits [dd1, dd2] 0
      if 1 ≤ m && m ≤ 12 && 1 ≤ d && d ≤ daysInMonth y m then .ok true
      else .error ()
    | _ => .ok false

/-- `isNonNegativeInteger`: the `/^\d+$/` test, then
`parseInt(value, 10).toString() === value`.  The parse/print round-trip is
modelled in exact integer arithmetic; it agrees with the 64-bit float
semantics of JS for every literal of at most 15 digits (below 2^53).  The
round-trip rejects exactly the literals with superfluous leading zeros
(and, in JS, huge literals that are not exactly representable). -/
def isNonNegativeInteger (value : String) : Bool :=
  value.data ≠ [] && value.data.all isDigitChar &&
  (String.mk (natToDec (natOfDigits value.data 0)) == value)

/-- `row[i]` for a JS array index that may be `-1` (`indexOf` miss) or past
the row's end: `none` models `undefined`. -/
def jsAt (row : List String) (i : Int) : Option String :=
  if i < 0 then none else row[i.toNat]?

/-- How a possibly-`undefined` cell prints inside a template literal. -/
def cellShow : Option String → String
  | none => "undefined"
  | some s => s

/-- A possibly-`undefined` cell as a JSON value (for finding pointers). -/
def cellVal : Option String → JValue
  | none => .jundefined
  | some s => .jstr s

/-- `Array.prototype.indexOf`, returning `-1` on a miss. -/
def jsIndexOfAux (s : String) : List String → Nat → Int
  | [], _ => -1
  | x :: rest, n => if x == s then Int.ofNat n else jsIndexOfAux s rest (n + 1)

/-- `headers.indexOf(s)`. -/
def jsIndexOf (l : List String) (s : String) : Int :=
  jsIndexOfAux s l 0

/-- `requiredHeaders` of the GA4 CSV schema. -/
def requiredHeaders : List String := ["date", "sessions", "users"]

/-- Build a `List String` as a JSON array value. -/
def jarrOfStrings : List String → JArr
  | [] => .nil
  | s :: rest => .cons (.jstr s) (jarrOfStrings rest)

/-- The `INVALID_CONTENT_ENCODING` finding. -/
def invalidEncodingF : Finding :=
  { level := .error, code := "INVALID_CONTENT_ENCODING",
    message := "Content must be prefixed with \"base64:\" or \"text:\"" }

/-- The `EMPTY_CSV` finding. -/
def emptyCsvF : Finding :=
  { level := .error, code := "EMPTY_CSV", message := "CSV file is empty" }

/-- The `MISSING_REQUIRED_HEADERS` finding. -/
def missingRequiredF (missing : List String) : Finding :=
  { level := .error, code := "MISSING_REQUIRED_HEADERS",
    message := "Missing required headers: " ++ joinSep ", " missing,
    pointer := some (.jobj (.cons "missing" (.jarr (jarrOfStrings missing)) .nil)) }

/-- The `MISSING_OPTIONAL_HEADER` warning. -/
def missingOptionalF : Finding :=
  { level := .warning, code := "MISSING_OPTIONAL_HEADER",
    message := "Optional header \"pageviews\" is missing" }

/-- The `MAX_ROWS_EXCEEDED` finding. -/
def maxRowsF (maxRows : Int) (rowCount : Nat) : Finding :=
  { level := .error, code := "MAX_ROWS_EXCEEDED",
    message := "CSV has " ++ rowCount.repr ++ " rows, exceeding maximum of " ++
      maxRows.repr,
    pointer := some (.jobj (.cons "maxRows" (.jnum maxRows)
      (.cons "actualRows" (.jnum rowCount) .nil))) }

/-- The `INVALID_ROW_FORMAT` finding. -/
def invalidRowFormatF (rowIndex : Nat) : Finding :=
  { level := .error, code := "INVALID_ROW_FORMAT",
    message := "Row " ++ rowIndex.repr ++ " has insufficient columns",
    pointer := some (.jobj (.cons "row" (.jnum rowIndex) .nil)) }

/-- The `INVALID_DATE_FORMAT` finding. -/
def invalidDateF (rowIndex : Nat) (cell : Option String) : Finding :=
  { level := .error, code := "INVALID_DATE_FORMAT",
    message := "Row " ++ rowIndex.repr ++ ": Invalid date format \"" ++
      cellShow cell ++ "\". Expected YYYY-MM-DD",
    pointer := some (.jobj (.cons "row" (.jnum rowIndex)
      (.cons "value" (cellVal cell) .nil))) }

/-- The `DUPLICATE_DATE` finding. -/
def duplicateDateF (rowIndex : Nat) (d : String) : Finding :=
  { level := .error, code := "DUPLICATE_DATE",
    message := "Row " ++ rowIndex.repr ++ ": Duplicate date \"" ++ d ++ "\"",
    pointer := some (.jobj (.cons "row" (.jnum rowIndex)
      (.cons "date" (.jstr d) .nil))) }

/-- The `INVALID_<FIELD>_VALUE` finding for a numeric field. -/
def invalidFieldF (field code : String) (rowIndex : Nat) (cell : Option String) : Finding :=
  { level := .error, code := code,
    message := "Row " ++ rowIndex.repr ++ ": \"" ++ field ++
      "\" must be a non-negative integer, got \"" ++ cellShow cell ++ "\"",
    pointer := some (.jobj (.cons "row" (.jnum rowIndex)
      (.cons "value" (cellVal cell) .nil))) }

/-- The `NOT_SORTED_BY_DATE` finding. -/
def notSortedF : Finding :=
  { level := .error, code := "NOT_SORTED_BY_DATE",
    message := "Dates are not sorted in ascending order" }

/-- `isNonNegativeInteger` applied to a possibly-`undefined` cell (the
regex test coerces `undefined` to the string "undefined", which fails). -/
def isNonNegIntJS : Option String → Bool
  | none => false
  | some s => isNonNegativeInteger s

/-- The numeric-field checks at the end of one row iteration: `sessions`,
`users`, and `pageviews` when that column exists and the cell is neither
`undefined` nor the empty string. -/
def rowNumericChecks (sessionsIdx usersIdx pageviewsIdx : Int)
    (row : List String) (rowIndex : Nat) (findings : List Finding) : List Finding :=
  let sessions := jsAt row sessionsIdx
  let findings :=
    if !isNonNegIntJS sessions then
      findings ++ [invalidFieldF "sessions" "INVALID_SESSIONS_VALUE" rowIndex sessions]
    else findings
  let users := jsAt row usersIdx
  let findings :=
    if !isNonNegIntJS users then
      findings ++ [invalidFieldF "users" "INVALID_USERS_VALUE" rowIndex users]
    else findings
  let pv := jsAt row pageviewsIdx
  if pageviewsIdx ≥ 0 && (match pv with | some s => s != "" | none => false) then
    if !isNonNegIntJS pv then
      findings ++ [invalidFieldF "pageviews" "INVALID_PAGEVIEWS_VALUE" rowIndex pv]
    else findings
  else findings

/-- The `dataRows.forEach` loop of `validateGA4CSV`: accumulates findings
and the list of valid dates; `Except.error` models the `RangeError`
escaping from `isValidDate` (see there), which aborts the whole loop. -/
def processRows (opts : GA4Options) (dateIdx sessionsIdx usersIdx pageviewsIdx : Int) :
    List (List String) → Nat → List Finding → List String → List String →
    Except Unit (List Finding × List String)
  | [], _, findings, dates, _ => .ok (findings, dates)
  | row :: rest, rowIndex, findings, dates, seen =>
    if row.length < requiredHeaders.length then
      processRows opts dateIdx sessionsIdx usersIdx pageviewsIdx rest (rowIndex + 1)
        (findings ++ [invalidRowFormatF rowIndex]) dates seen
    else
      match jsAt row dateIdx with
      | none =>
        processRows opts dateIdx sessionsIdx usersIdx pageviewsIdx rest (rowIndex + 1)
          (rowNumericChecks sessionsIdx usersIdx pageviewsIdx row rowIndex
            (findings ++ [invalidDateF rowIndex none])) dates seen
      | some d =>
        match isValidDate d with
        | .error e => .error e
        | .ok false =>
          processRows opts dateIdx sessionsIdx usersIdx pageviewsIdx rest (rowIndex + 1)
            (rowNumericChecks sessionsIdx usersIdx pageviewsIdx row rowIndex
              (findings ++ [invalidDateF rowIndex (some d)])) dates seen
        | .ok true =>
          if seen.contains d then
            processRows opts dateIdx sessionsIdx usersIdx pageviewsIdx rest (rowIndex + 1)
              (rowNumericChecks sessionsIdx usersIdx pageviewsIdx row rowIndex
                (if !opts.allowDuplicateDates then findings ++ [duplicateDateF rowIndex d]
                 else findings)) (dates ++ [d]) seen
          else
            processRows opts dateIdx sessionsIdx usersIdx pageviewsIdx rest (rowIndex + 1)
              (rowNumericChecks sessionsIdx usersIdx pageviewsIdx row rowIndex findings)
              (dates ++ [d]) (seen ++ [d])

/-- `buildErrorResponse`. -/
def buildErrorResponse (findings : List Finding) (rowCount : Nat) : ValidationSuccess :=
  { summary :=
      { valid := false,
        issues := (findings.filter fun f => f.level == Level.error).length,
        warnings := (findings.filter fun f => f.level == Level.warning).length,
        rows := rowCount },
    findings := findings,
    normalized := { detectedHeaders := [] } }

/-- `validateGA4CSV` (src/validators/csv-ga4.ts).  `Except.error ()` is
the `RangeError` thrown out of `isValidDate` for a regex-matching but
out-of-range date; every other path returns a `ValidationSuccess`. -/
def validateGA4CSV (content : String) (options : GA4Options := {}) :
    Except Unit ValidationSuccess :=
  let maxRows := options.maxRows.getD DEFAULT_MAX_ROWS
  match decodeContent content with
  | none => .ok (buildErrorResponse [invalidEncodingF] 0)
  | some csvText =>
    match parseCSV csvText with
    | [] => .ok (buildErrorResponse [emptyCsvF] 0)
    | headers :: dataRows =>
      let missingHeaders := requiredHeaders.filter fun h => !(headers.contains h)
      if missingHeaders.length > 0 then
        .ok (buildErrorResponse [missingRequiredF missingHeaders] 0)
      else
        let hasPageviews := headers.contains "pageviews"
        let findings0 :=
          if !hasPageviews && !options.allowPageviewsMissing then [missingOptionalF] else []
        let dateIdx := jsIndexOf headers "date"
        let sessionsIdx := jsIndexOf headers "sessions"
        let usersIdx := jsIndexOf headers "users"
        let pageviewsIdx := jsIndexOf headers "pageviews"
        let rowCount := dataRows.length
        if (rowCount : Int) > maxRows then
          .ok (buildErrorResponse (findings0 ++ [maxRowsF maxRows rowCount]) rowCount)
        else
          match processRows options dateIdx sessionsIdx usersIdx pageviewsIdx
              dataRows 2 findings0 [] [] with
          | .error e => .error e
          | .ok (findings1, dates) =>
            let findings2 := findings1 ++
              (if options.requireSortedByDateAsc && !dates.isEmpty &&
                  dates != sortStrings dates then [notSortedF] else [])
            let errorFindings := findings2.filter fun f => f.level == Level.error
            let warningFindings := findings2.filter fun f => f.level == Level.warning
            let dateRange :=
              match dates with
              | [] => none
              | d :: rest => some { start := d, «end» := rest.getLastD d : DateRange }
            .ok { summary :=
                    { valid := errorFindings.length == 0,
                      issues := errorFindings.length,
                      warnings := warningFindings.length,
                      rows := rowCount },
                  findings := findings2,
                  normalized := { detectedHeaders := headers, dateRange := dateRange } }

/-! ### Requests, responses, fingerprinting (src/backend/src/types.ts,
src/middleware/idempotency.ts) -/

/-- `ValidationRequest`: operation type, content, untyped options and
context mappings. -/
structure ValidationRequest where
  type : String
  content : String
  options : Option JObj := none
  context : Option JObj := none

/-- The `error` member of a `ValidationError`. -/
structure ErrorInfo where
  code : String
  message : String

/-- `ValidationError` (`ok: false` implied by the constructor). -/
structure ValidationError where
  error : ErrorInfo
  findings : Option (List Finding) := none
  idempotency : Option IdemInfo := none

/-- `ValidationResponse = ValidationSuccess | ValidationError`. -/
inductive ValidationResponse where
  | success (s : ValidationSuccess)
  | failure (e : ValidationError)

/-- `response.idempotency = { key, replayed }` (the source assigns this
field on both the `ok` and the error shape). -/
def setIdem (key : String) (replayed : Bool) : ValidationResponse → ValidationResponse
  | .success s => .success { s with idempotency := some ⟨key, replayed⟩ }
  | .failure e => .failure { e with idempotency := some ⟨key, replayed⟩ }

/-- Modelled from the spec: `sha256` of src/utils/crypto.ts is not under
src/.  The spec (§4.2) requires only a collision-resistant 256-bit digest
used consistently; it is idealized here as an injective map on strings
(the identity), which keeps every fingerprint computation executable.  No
theorem below relies on any property of the digest other than it being a
function, except where a hypothesis states explicitly that two digests
differ or that a digest contains no colon (true of real hex digests). -/
def sha256 (s : String) : String := s

/-- `computeFingerprint` (src/middleware/idempotency.ts, identical in both
versions): digest of operation type ++ content digest ++ canonical
options ++ canonical context; absent options/context canonicalize as the
empty object (`options || {}`). -/
def computeFingerprint (req : ValidationRequest) : String :=
  let contentHash := sha256 req.content
  let optionsStr := stableStringify (.jobj (req.options.getD .nil))
  let contextStr := stableStringify (.jobj (req.context.getD .nil))
  sha256 (req.type ++ contentHash ++ optionsStr ++ contextStr)

/-! ### Reading the untyped options into `GA4Options` -/

/-- First field with key `k` (a genuine JS object has unique keys). -/
def jobjLookup : JObj → String → Option JValue
  | .nil, _ => none
  | .cons k v rest, key => if k == key then some v else jobjLookup rest key

/-- JS truthiness. -/
def jsTruthy : JValue → Bool
  | .jnull => false
  | .jundefined => false
  | .jbool b => b
  | .jnum n => n != 0
  | .jstr s => s != ""
  | .jarr _ => true
  | .jobj _ => true

/-- Read `options.k` (absent object or absent key is `undefined`). -/
def optField (o : Option JObj) (k : String) : JValue :=
  match o with
  | none => .jundefined
  | some fs => (jobjLookup fs k).getD .jundefined

/-- The numeric value `rowCount` is compared against after
`options.maxRows ?? DEFAULT_MAX_ROWS`: `null`/`undefined` fall back to
the default; booleans coerce to 0/1 in the `>` comparison.  A string or
container `maxRows` (degenerate, exercised by no claim) would coerce
through `ToNumber`; it is approximated by the default here. -/
def asMaxRows : JValue → Option Int
  | .jnum n => some n
  | .jbool b => some (if b then 1 else 0)
  | _ => none

/-- The typed view of `req.options` that `validateGA4CSV` reads. -/
def toGA4Options (o : Option JObj) : GA4Options :=
  { allowPageviewsMissing := jsTruthy (optField o "allowPageviewsMissing")
    requireSortedByDateAsc := jsTruthy (optField o "requireSortedByDateAsc")
    allowDuplicateDates := jsTruthy (optField o "allowDuplicateDates")
    maxRows := asMaxRows (optField o "maxRows") }

/-- `performValidation` (src/backend/src/index.ts): dispatch on the
operation type; a failed validation becomes a `VALIDATION_FAILED` error
response carrying the findings; an unknown type becomes
`UNSUPPORTED_TYPE`.  `Except.error` is the engine `RangeError`
propagating to the caller. -/
def performValidation (req : ValidationRequest) : Except Unit ValidationResponse :=
  if req.type == "csv.timeseries.ga4.v1" then
    match validateGA4CSV req.content (toGA4Options req.options) with
    | .error e => .error e
    | .ok result =>
      if !result.summary.valid then
        .ok (.failure
          { error := ⟨"VALIDATION_FAILED", "CSV failed validation."⟩,
            findings := some result.findings })
      else .ok (.success result)
  else
    .ok (.failure
      { error := ⟨"UNSUPPORTED_TYPE",
          "Validation type \"" ++ req.type ++ "\" is not supported"⟩ })

/-! ### The idempotency store (Workers KV, modelled as an association
list; `kvPut` conses, `kvGet` returns the newest entry, so a put
overwrites) -/

/-- `IdempotencyMetadata` (the stored `timestamp: Date.now()` is written
but never read by any code path, and is omitted). -/
structure IdemMeta where
  key : String
  fingerprint : String
  response : ValidationResponse

/-- A stored KV value: a plain string (the fingerprint record of the
second middleware version) or a JSON metadata blob. -/
inductive KVVal where
  | text (s : String)
  | meta (m : IdemMeta)

/-- The key-value store. -/
def KV := List (String × KVVal)

/-- `put` (with TTL, which the model does not advance past). -/
def kvPut (st : KV) (k : String) (v : KVVal) : KV := (k, v) :: st

/-- `get`. -/
def kvGet (st : KV) (k : String) : Option KVVal :=
  (st.find? fun e => e.1 == k).map (·.2)

/-- `get(key, "text")`. -/
def kvGetText (st : KV) (k : String) : Option String :=
  match kvGet st k with
  | some (.text s) => some s
  | _ => none

/-- `get(key, "json")` parsed as `IdempotencyMetadata`. -/
def kvGetMeta (st : KV) (k : String) : Option IdemMeta :=
  match kvGet st k with
  | some (.meta m) => some m
  | _ => none

/-- `list({ prefix })`: the stored key names starting with `p`. -/
def kvKeysWith (st : KV) (p : String) : List String :=
  (st.map (·.1)).filter fun k => strStarts k p

/-- `idem:{apiKeyHash}:{idempotencyKey}:{fingerprint}` (string
concatenation written right-associated, which builds the same string). -/
def idemKey (h k fp : String) : String :=
  "idem:" ++ (h ++ (":" ++ (k ++ (":" ++ fp))))

/-- `idem:{apiKeyHash}:{idempotencyKey}:` — the listing pattern of the
first middleware version. -/
def idemKeyStem (h k : String) : String :=
  "idem:" ++ (h ++ (":" ++ (k ++ ":")))

/-- `idem-fp:{apiKeyHash}:{idempotencyKey}` — the fingerprint record of
the second middleware version. -/
def fpRecordKey (h k : String) : String :=
  "idem-fp:" ++ (h ++ (":" ++ k))

/-! ### The two versions of the idempotency middleware
(src/middleware/idempotency.ts, first and second revision in the
sources).  `Except.error code` models the thrown 409 `Response`; `ok
none` is a miss, `ok (some r)` a cached hit annotated `replayed=true`. -/

/-- `checkIdempotency`, list-keys version: exact-key lookup, then a
prefix listing to detect a reused key with a different fingerprint. -/
def checkIdempotencyV1 (st : KV) (idempotencyKey apiKey fingerprint : String) :
    Except String (Option ValidationResponse) :=
  let apiKeyHash := sha256 apiKey
  match kvGetMeta st (idemKey apiKeyHash idempotencyKey fingerprint) with
  | some m => .ok (some (setIdem idempotencyKey true m.response))
  | none =>
    if (kvKeysWith st (idemKeyStem apiKeyHash idempotencyKey)).isEmpty then
      .ok none
    else .error "IDEMPOTENCY_KEY_REUSE_MISMATCH"

/-- `storeIdempotentResponse`, list-keys version. -/
def storeIdempotentResponseV1 (st : KV) (idempotencyKey apiKey fingerprint : String)
    (response : ValidationResponse) : KV :=
  kvPut st (idemKey (sha256 apiKey) idempotencyKey fingerprint)
    (.meta ⟨idempotencyKey, fingerprint, response⟩)

/-- `checkIdempotency`, fingerprint-record version: read the stored
fingerprint; mismatch is a conflict, match retrieves the cached
response. -/
def checkIdempotencyV2 (st : KV) (idempotencyKey apiKey fingerprint : String) :
    Except String (Option ValidationResponse) :=
  let apiKeyHash := sha256 apiKey
  match kvGetText st (fpRecordKey apiKeyHash idempotencyKey) with
  | some storedFingerprint =>
    if storedFingerprint != fingerprint then
      .error "IDEMPOTENCY_KEY_REUSE_MISMATCH"
    else
      match kvGetMeta st (idemKey apiKeyHash idempotencyKey fingerprint) with
      | some m => .ok (some (setIdem idempotencyKey true m.response))
      | none => .ok none
  | none => .ok none

/-- `storeIdempotentResponse`, fingerprint-record version: stores the
response under the full key and the fingerprint under its own record. -/
def storeIdempotentResponseV2 (st : KV) (idempotencyKey apiKey fingerprint : String)
    (response : ValidationResponse) : KV :=
  let apiKeyHash := sha256 apiKey
  let st := kvPut st (idemKey apiKeyHash idempotencyKey fingerprint)
    (.meta ⟨idempotencyKey, fingerprint, response⟩)
  kvPut st (fpRecordKey apiKeyHash idempotencyKey) (.text fingerprint)

/-! ### The orchestrator (idempotent path of `fetch`,
src/backend/src/index.ts lines 146-167) -/

/-- What one `handle` call returns to the dispatcher: a completed
response, the 409 conflict (which carries an error code and no result
payload), or the 500 `INTERNAL_ERROR` of the outer catch. -/
inductive Outcome where
  | completed (resp : ValidationResponse)
  | conflict (code : String)
  | internalError

/-- The result payload of an outcome, if any. -/
def Outcome.payload : Outcome → Option ValidationResponse
  | .completed r => some r
  | _ => none

/-- Is the outcome the conflict rejection? -/
def Outcome.isConflict : Outcome → Bool
  | .conflict _ => true
  | _ => false

/-- Result of a `handle` call: outcome, the store afterwards, and an
instrumentation bit recording whether the Validation Engine was
invoked. -/
structure HandleResult where
  outcome : Outcome
  store : KV
  engineRan : Bool

/-- The idempotent request path of `fetch`, parameterized by the
middleware pair: compute the fingerprint, consult the store (conflict and
cached-hit short-circuit without running the engine), otherwise run the
engine, annotate `replayed=false`, store, and return. -/
def handleWith
    (check : KV → String → String → String → Except String (Option ValidationResponse))
    (save : KV → String → String → String → ValidationResponse → KV)
    (st : KV) (apiKey idempotencyKey : String) (req : ValidationRequest) :
    HandleResult :=
  let fingerprint := computeFingerprint req
  match check st idempotencyKey apiKey fingerprint with
  | .error code => ⟨.conflict code, st, false⟩
  | .ok (some existing) => ⟨.completed existing, st, false⟩
  | .ok none =>
    match performValidation req with
    | .error _ => ⟨.internalError, st, true⟩
    | .ok result =>
      let result := setIdem idempotencyKey false result
      ⟨.completed result, save st idempotencyKey apiKey fingerprint result, true⟩

/-- `handle` over the list-keys middleware. -/
def handleV1 : KV → String → String → ValidationRequest → HandleResult :=
  handleWith checkIdempotencyV1 storeIdempotentResponseV1

/-- `handle` over the fingerprint-record middleware. -/
def handleV2 : KV → String → String → ValidationRequest → HandleResult :=
  handleWith checkIdempotencyV2 storeIdempotentResponseV2

/-! ### Sequential histories of raw middleware calls (for the
equivalence claim between the two middleware versions) -/

/-- One middleware call: a `checkIdempotency` or a
`storeIdempotentResponse`, with its arguments. -/
inductive IdemOp where
  | check (apiKey token fp : String)
  | store (apiKey token fp : String) (resp : ValidationResponse)

/-- The observable outcome of one `checkIdempotency` call. -/
inductive IdemOutcome where
  | hit (r : ValidationResponse)
  | miss
  | conflict

/-- Classify a `checkIdempotency` result. -/
def checkOutcome : Except String (Option ValidationResponse) → IdemOutcome
  | .error _ => .conflict
  | .ok none => .miss
  | .ok (some r) => .hit r

/-- Run a history against the list-keys middleware, collecting each
check's outcome. -/
def runV1 : KV → List IdemOp → List IdemOutcome
  | _, [] => []
  | st, .check a t f :: rest => checkOutcome (checkIdempotencyV1 st t a f) :: runV1 st rest
  | st, .store a t f r :: rest => runV1 (storeIdempotentResponseV1 st t a f r) rest

/-- Run a history against the fingerprint-record middleware. -/
def runV2 : KV → List IdemOp → List IdemOutcome
  | _, [] => []
  | st, .check a t f :: rest => checkOutcome (checkIdempotencyV2 st t a f) :: runV2 st rest
  | st, .store a t f r :: rest => runV2 (storeIdempotentResponseV2 st t a f r) rest

/-- Findings of an engine result (`[]` when the engine threw). -/
def engineFindings : Except Unit ValidationSuccess → List Finding
  | .ok r => r.findings
  | .error _ => []

/-! ### String-level facts about the store keys -/

theorem data_append (a b : String) : (a ++ b).data = a.data ++ b.data := rfl

theorem strExt {a b : String} (h : a.data = b.data) : a = b := by
  cases a; cases b; exact congrArg String.mk h

theorem idemKey_data (h k fp : String) :
    (idemKey h k fp).data =
      'i' :: 'd' :: 'e' :: 'm' :: ':' :: (h.data ++ ':' :: (k.data ++ ':' :: fp.data)) := rfl

theorem idemKeyStem_data (h k : String) :
    (idemKeyStem h k).data =
      'i' :: 'd' :: 'e' :: 'm' :: ':' :: (h.data ++ ':' :: (k.data ++ [':'])) := rfl

theorem fpRecordKey_data (h k : String) :
    (fpRecordKey h k).data =
      'i' :: 'd' :: 'e' :: 'm' :: '-' :: 'f' :: 'p' :: ':' :: (h.data ++ ':' :: k.data) := rfl

/-- A fingerprint record key is never a response record key. -/
theorem fpRecordKey_ne_idemKey (h k h2 k2 fp : String) :
    fpRecordKey h k ≠ idemKey h2 k2 fp := by
  intro heq
  have hd := congrArg String.data heq
  rw [fpRecordKey_data, idemKey_data] at hd
  simp at hd

/-- Two response record keys with the same hash and token agree iff the
fingerprints agree. -/
theorem idemKey_fp_inj {h k f1 f2 : String}
    (heq : idemKey h k f1 = idemKey h k f2) : f1 = f2 := by
  have hd := congrArg String.data heq
  rw [idemKey_data, idemKey_data] at hd
  simp at hd
  exact strExt hd

/-- A full response record key splits as listing stem ++ fingerprint. -/
theorem idemKey_eq_stem_append (h k fp : String) :
    idemKey h k fp = idemKeyStem h k ++ fp := by
  apply strExt
  rw [data_append, idemKey_data, idemKeyStem_data]
  simp

theorem isPrefixOf_append_self (l m : List Char) : l.isPrefixOf (l ++ m) = true :=
  List.isPrefixOf_iff_prefix.mpr (List.prefix_append _ _)

/-- Every response record key matches the listing pattern for its own
hash and token. -/
theorem strStarts_idemKey_stem (h k fp : String) :
    strStarts (idemKey h k fp) (idemKeyStem h k) = true := by
  rw [idemKey_eq_stem_append, strStarts, data_append]
  exact isPrefixOf_append_self _ _

/-- Re-annotating a response overwrites a previous annotation. -/
theorem setIdem_setIdem (k : String) (b b2 : Bool) (r : ValidationResponse) :
    setIdem k b (setIdem k b2 r) = setIdem k b r := by
  cases r <;> rfl

/-! ### Claim C1 — idempotent replay -/

/-- C1: for every validation request and idempotency token under a fixed
caller identity (and either middleware version), calling the handler
twice in sequence from an empty store yields identical result payloads:
the engine result, annotated `replayed=false` on the first call and
`replayed=true` on the second, and the Validation Engine runs on the
first call only.  (The hypothesis states that the engine returns rather
than throws on this request; a throw would surface as `INTERNAL_ERROR`
before anything is stored.) -/
theorem idempotent_replay (req : ValidationRequest) (apiKey token : String)
    (h : (performValidation req).isOk = true) :
    ((handleV2 [] apiKey token req).outcome.payload =
        (performValidation req).toOption.map (setIdem token false)) ∧
    ((handleV2 (handleV2 [] apiKey token req).store apiKey token req).outcome.payload =
        (performValidation req).toOption.map (setIdem token true)) ∧
    (handleV2 [] apiKey token req).engineRan = true ∧
    (handleV2 (handleV2 [] apiKey token req).store apiKey token req).engineRan = false ∧
    ((handleV1 [] apiKey token req).outcome.payload =
        (performValidation req).toOption.map (setIdem token false)) ∧
    ((handleV1 (handleV1 [] apiKey token req).store apiKey token req).outcome.payload =
        (performValidation req).toOption.map (setIdem token true)) ∧
    (handleV1 [] apiKey token req).engineRan = true ∧
    (handleV1 (handleV1 [] apiKey token req).store apiKey token req).engineRan = false := by
  obtain ⟨result, hr⟩ : ∃ r, performValidation req = .ok r := by
    cases hpv : performValidation req with
    | error e => rw [hpv] at h; exact Bool.noConfusion h
    | ok r => exact ⟨r, rfl⟩
  have hne : ((fpRecordKey (sha256 apiKey) token ==
      idemKey (sha256 apiKey) token (computeFingerprint req)) = false) :=
    beq_eq_false_iff_ne.mpr (fpRecordKey_ne_idemKey _ _ _ _ _)
  have h1 : handleV2 [] apiKey token req =
      ⟨.completed (setIdem token false result),
       storeIdempotentResponseV2 [] token apiKey (computeFingerprint req)
         (setIdem token false result), true⟩ := by
    simp [handleV2, handleWith, checkIdempotencyV2, kvGetText, kvGet, hr]
  have h2 : handleV2 (handleV2 [] apiKey token req).store apiKey token req =
      ⟨.completed (setIdem token true result),
       storeIdempotentResponseV2 [] token apiKey (computeFingerprint req)
         (setIdem token false result), false⟩ := by
    rw [h1]
    simp [handleV2, handleWith, checkIdempotencyV2, kvGetText, kvGet, kvGetMeta,
      storeIdempotentResponseV2, kvPut, hne, setIdem_setIdem]
  have h1v1 : handleV1 [] apiKey token req =
      ⟨.completed (setIdem token false result),
       storeIdempotentResponseV1 [] token apiKey (computeFingerprint req)
         (setIdem token false result), true⟩ := by
    simp [handleV1, handleWith, checkIdempotencyV1, kvGetMeta, kvGet, kvKeysWith, hr]
  have h2v1 : handleV1 (handleV1 [] apiKey token req).store apiKey token req =
      ⟨.completed (setIdem token true result),
       storeIdempotentResponseV1 [] token apiKey (computeFingerprint req)
         (setIdem token false result), false⟩ := by
    rw [h1v1]
    simp [handleV1, handleWith, checkIdempotencyV1, kvGetMeta, kvGet,
      storeIdempotentResponseV1, kvPut, setIdem_setIdem]
  rw [h2, h2v1, h1, h1v1, hr]
  simp [Outcome.payload, Except.toOption]

/-- A concrete valid request for the replay witness. -/
def c1Req : ValidationRequest :=
  { type := "csv.timeseries.ga4.v1",
    content := "text:date,sessions,users\n2024-01-01,150,120" }

/-- Witness for C1 at a concrete request, token and API key. -/
theorem idempotent_replay_witness :
    (performValidation c1Req).isOk = true ∧
    (handleV2 (handleV2 [] "key-1" "tok-1" c1Req).store "key-1" "tok-1" c1Req).engineRan
      = false ∧
    (handleV1 (handleV1 [] "key-1" "tok-1" c1Req).store "key-1" "tok-1" c1Req).engineRan
      = false :=
  ⟨rfl, (idempotent_replay c1Req "key-1" "tok-1" rfl).2.2.2.1,
    (idempotent_replay c1Req "key-1" "tok-1" rfl).2.2.2.2.2.2.2⟩

/-- A request on which the engine throws (the out-of-range date of C3),
refuting the universally quantified replay claim. -/
def c1ThrowReq : ValidationRequest :=
  { type := "csv.timeseries.ga4.v1",
    content := "text:date,sessions,users\n2024-13-99,1,1" }

/-- C1, counterexample to the claim as frozen over every request: for a
request whose engine run throws (the date `2024-13-99`), the first call
produces no result payload (it surfaces as a 500, nothing annotated
`replayed=false`), nothing is stored, and the Validation Engine is
invoked again on the second call — under both middleware versions.  The
replay property holds only for requests whose first call completes. -/
theorem replay_claim_counterexample :
    (handleV2 [] "key-1" "tok-1" c1ThrowReq).outcome.payload = none ∧
    (handleV2 (handleV2 [] "key-1" "tok-1" c1ThrowReq).store "key-1" "tok-1"
        c1ThrowReq).engineRan = true ∧
    (handleV1 [] "key-1" "tok-1" c1ThrowReq).outcome.payload = none ∧
    (handleV1 (handleV1 [] "key-1" "tok-1" c1ThrowReq).store "key-1" "tok-1"
        c1ThrowReq).engineRan = true :=
  ⟨rfl, rfl, rfl, rfl⟩

/-! ### Claim C3 — failure semantics of the engine -/

/-- C3: the spec says the engine never throws for malformed input data;
the code contradicts it.  The data row date `2024-13-99` matches the
`\d{4}-\d{2}-\d{2}` regex, so `isValidDate` reaches
`new Date("2024-13-99").toISOString()`, and `toISOString` on an Invalid
Date throws a `RangeError` that escapes `validateGA4CSV` (surfacing as a
500 `INTERNAL_ERROR` instead of an `INVALID_DATE_FORMAT` finding). -/
theorem engine_throws_on_out_of_range_date :
    validateGA4CSV "text:date,sessions,users\n2024-13-99,1,1" {} = .error () := rfl

/-! ### Claim C4 — determinism of the engine -/

/-- C4: the Validation Engine's output depends only on its arguments
(content, options): on equal inputs it produces equal results.  The
embedding makes the dependency set exact — `validateGA4CSV` required no
clock, randomness or environment parameter to be translated faithfully
(the only impurity in the source, `new Date(s)`, is used as a pure
parse of `s`). -/
theorem engine_deterministic (c1 c2 : String) (o1 o2 : GA4Options)
    (hc : c1 = c2) (ho : o1 = o2) :
    validateGA4CSV c1 o1 = validateGA4CSV c2 o2 := by rw [hc, ho]

/-- Witness for C4 at a concrete input. -/
theorem engine_deterministic_witness :
    "text:date,sessions,users\n2024-01-01,1,2" =
      "text:date,sessions,users\n2024-01-01,1,2" ∧
    ({ maxRows := some 5 } : GA4Options) = { maxRows := some 5 } ∧
    validateGA4CSV "text:date,sessions,users\n2024-01-01,1,2" { maxRows := some 5 } =
      validateGA4CSV "text:date,sessions,users\n2024-01-01,1,2" { maxRows := some 5 } :=
  ⟨rfl, rfl,
    engine_deterministic _ _ { maxRows := some 5 } { maxRows := some 5 } rfl rfl⟩

/-! ### Claim C2 — conflict detection

As stated the claim is false: two requests can differ in `options` (one
absent, one the empty mapping) yet canonicalize — and hence fingerprint —
identically, because the middleware computes
`stableStringify(request.options || {})`; the second call then replays
instead of conflicting.  The amended claim quantifies over requests whose
fingerprints differ. -/

/-- First request of the C2 counterexample: no `options` member. -/
def c2ReqA : ValidationRequest :=
  { type := "csv.timeseries.ga4.v1",
    content := "text:date,sessions,users\n2024-01-01,1,2" }

/-- Second request of the C2 counterexample: `options` present but the
empty mapping, so the request differs from `c2ReqA` in its `options`. -/
def c2ReqB : ValidationRequest :=
  { type := "csv.timeseries.ga4.v1",
    content := "text:date,sessions,users\n2024-01-01,1,2",
    options := some .nil }

/-- C2 counterexample: `c2ReqA` and `c2ReqB` differ in `options` (absent
versus empty mapping), yet their fingerprints coincide, and the second
call is not a conflict under either middleware version — it replays. -/
theorem conflict_claim_counterexample :
    c2ReqA.options.isNone = true ∧ c2ReqB.options.isSome = true ∧
    computeFingerprint c2ReqA = computeFingerprint c2ReqB ∧
    (handleV2 (handleV2 [] "key-1" "tok-1" c2ReqA).store "key-1" "tok-1" c2ReqB).outcome.isConflict
      = false ∧
    (handleV1 (handleV1 [] "key-1" "tok-1" c2ReqA).store "key-1" "tok-1" c2ReqB).outcome.isConflict
      = false :=
  ⟨rfl, rfl, rfl, rfl, rfl⟩

/-- C2 (amended): for every token and requests `r1`, `r2` whose
fingerprints differ (which covers every difference in operation type,
content, options or context that survives canonicalization), calling the
handler with `r1` and then `r2` under the same token yields the
`IDEMPOTENCY_KEY_REUSE_MISMATCH` conflict outcome on the second call,
and that outcome carries no result payload — under both middleware
versions.  (The hypothesis on `r1` states the first call completed, so
that a record was stored.) -/
theorem conflict_on_fingerprint_mismatch (r1 r2 : ValidationRequest) (apiKey token : String)
    (h : (performValidation r1).isOk = true)
    (hfp : computeFingerprint r1 ≠ computeFingerprint r2) :
    (handleV2 (handleV2 [] apiKey token r1).store apiKey token r2).outcome =
      .conflict "IDEMPOTENCY_KEY_REUSE_MISMATCH" ∧
    (handleV2 (handleV2 [] apiKey token r1).store apiKey token r2).outcome.payload = none ∧
    (handleV1 (handleV1 [] apiKey token r1).store apiKey token r2).outcome =
      .conflict "IDEMPOTENCY_KEY_REUSE_MISMATCH" ∧
    (handleV1 (handleV1 [] apiKey token r1).store apiKey token r2).outcome.payload = none := by
  obtain ⟨result, hr⟩ : ∃ r, performValidation r1 = .ok r := by
    cases hpv : performValidation r1 with
    | error e => rw [hpv] at h; exact Bool.noConfusion h
    | ok r => exact ⟨r, rfl⟩
  have h1 : handleV2 [] apiKey token r1 =
      ⟨.completed (setIdem token false result),
       storeIdempotentResponseV2 [] token apiKey (computeFingerprint r1)
         (setIdem token false result), true⟩ := by
    simp [handleV2, handleWith, checkIdempotencyV2, kvGetText, kvGet, hr]
  have h1v1 : handleV1 [] apiKey token r1 =
      ⟨.completed (setIdem token false result),
       storeIdempotentResponseV1 [] token apiKey (computeFingerprint r1)
         (setIdem token false result), true⟩ := by
    simp [handleV1, handleWith, checkIdempotencyV1, kvGetMeta, kvGet, kvKeysWith, hr]
  have hfpb : ((computeFingerprint r1 != computeFingerprint r2) = true) := by
    simpa using hfp
  have hkey : ((idemKey (sha256 apiKey) token (computeFingerprint r1) ==
      idemKey (sha256 apiKey) token (computeFingerprint r2)) = false) :=
    beq_eq_false_iff_ne.mpr fun he => hfp (idemKey_fp_inj he)
  have h2 : (handleV2 (handleV2 [] apiKey token r1).store apiKey token r2).outcome =
      .conflict "IDEMPOTENCY_KEY_REUSE_MISMATCH" := by
    rw [h1]
    simp [handleV2, handleWith, checkIdempotencyV2, kvGetText, kvGet,
      storeIdempotentResponseV2, kvPut, hfpb]
  have h2v1 : (handleV1 (handleV1 [] apiKey token r1).store apiKey token r2).outcome =
      .conflict "IDEMPOTENCY_KEY_REUSE_MISMATCH" := by
    rw [h1v1]
    simp [handleV1, handleWith, checkIdempotencyV1, kvGetMeta, kvGet, kvKeysWith,
      storeIdempotentResponseV1, kvPut, hkey, strStarts_idemKey_stem]
  exact ⟨h2, by rw [h2]; rfl, h2v1, by rw [h2v1]; rfl⟩

/-- A request differing from `c2ReqA` in content (distinct fingerprint). -/
def c2ReqC : ValidationRequest :=
  { type := "csv.timeseries.ga4.v1",
    content := "text:date,sessions,users\n2024-01-02,3,4" }

/-- Witness for the amended C2 at concrete requests. -/
theorem conflict_on_fingerprint_mismatch_witness :
    (performValidation c2ReqA).isOk = true ∧
    computeFingerprint c2ReqA ≠ computeFingerprint c2ReqC ∧
    (handleV2 (handleV2 [] "key-1" "tok-1" c2ReqA).store "key-1" "tok-1" c2ReqC).outcome =
      .conflict "IDEMPOTENCY_KEY_REUSE_MISMATCH" :=
  ⟨rfl, by decide,
    (conflict_on_fingerprint_mismatch c2ReqA c2ReqC "key-1" "tok-1" rfl (by decide)).1⟩

/-! ### Claim C5 — fingerprint invariance under key order -/

/-- The rendered object entries are the mapped association list. -/
theorem ssObj_eq_map : ∀ fs : JObj,
    stableStringifyObj fs = fs.toList.map fun p => (p.1, stableStringify p.2)
  | .nil => rfl
  | .cons k v rest => by
    rw [stableStringifyObj, JObj.toList, List.map_cons, ssObj_eq_map rest]

/-- Two key-sorted entry lists that are permutations of each other and
have pairwise distinct keys are equal. -/
theorem sorted_perm_eq_of_nodup_keys :
    ∀ l1 l2 : List (String × String), List.Sorted PairLeR l1 → List.Sorted PairLeR l2 →
      l1.Perm l2 → (l1.map Prod.fst).Nodup → l1 = l2 := by
  intro l1
  induction l1 with
  | nil =>
    intro l2 _ _ hperm _
    exact hperm.nil_eq
  | cons a t1 ih =>
    intro l2 hs1 hs2 hperm hnd
    cases l2 with
    | nil => exact absurd hperm.symm.nil_eq (by simp)
    | cons b t2 =>
      have hab : a = b := by
        have ha2 : a ∈ b :: t2 := hperm.mem_iff.mp (List.mem_cons_self a t1)
        have hb1 : b ∈ a :: t1 := hperm.symm.mem_iff.mp (List.mem_cons_self b t2)
        rcases List.mem_cons.mp ha2 with h | ha2t
        · exact h
        rcases List.mem_cons.mp hb1 with h | hb1t
        · exact h.symm
        have h1 : strLe a.1 b.1 = true := (List.sorted_cons.mp hs1).1 b hb1t
        have h2 : strLe b.1 a.1 = true := (List.sorted_cons.mp hs2).1 a ha2t
        have hk : a.1 = b.1 := strLe_antisymm h1 h2
        exfalso
        have hmem : a.1 ∈ t1.map Prod.fst := by
          rw [hk]
          exact List.mem_map_of_mem Prod.fst hb1t
        rw [List.map_cons] at hnd
        exact (List.nodup_cons.mp hnd).1 hmem
      subst hab
      have hperm2 : t1.Perm t2 := hperm.cons_inv
      have := ih t2 (List.sorted_cons.mp hs1).2 (List.sorted_cons.mp hs2).2 hperm2
        (by rw [List.map_cons] at hnd; exact (List.nodup_cons.mp hnd).2)
      rw [this]

/-- Canonicalization is invariant under the construction order of an
object's fields (for genuine JS objects, whose keys are distinct):
`stableStringify` sorts the entries by key. -/
theorem ss_jobj_eq_of_perm (o1 o2 : JObj)
    (hperm : o1.toList.Perm o2.toList)
    (hnd : (o1.toList.map Prod.fst).Nodup) :
    stableStringify (.jobj o1) = stableStringify (.jobj o2) := by
  have hmap : (stableStringifyObj o1).Perm (stableStringifyObj o2) := by
    rw [ssObj_eq_map, ssObj_eq_map]
    exact hperm.map _
  have hkeys : ((stableStringifyObj o1).map Prod.fst).Nodup := by
    rw [ssObj_eq_map]
    have : (o1.toList.map fun p => (p.1, stableStringify p.2)).map Prod.fst
        = o1.toList.map Prod.fst := by
      rw [List.map_map]; rfl
    rw [this]
    exact hnd
  have hsorteq :
      (stableStringifyObj o1).insertionSort PairLeR =
        (stableStringifyObj o2).insertionSort PairLeR := by
    apply sorted_perm_eq_of_nodup_keys
    · exact List.sorted_insertionSort PairLeR _
    · exact List.sorted_insertionSort PairLeR _
    · exact ((List.perm_insertionSort PairLeR _).trans hmap).trans
        (List.perm_insertionSort PairLeR _).symm
    · exact ((List.perm_insertionSort PairLeR _).map Prod.fst).nodup_iff.mpr hkeys
  show ("\x7b" ++ renderObjEntries ((stableStringifyObj o1).insertionSort PairLeR) ++ "\x7d") =
    ("\x7b" ++ renderObjEntries ((stableStringifyObj o2).insertionSort PairLeR) ++ "\x7d")
  rw [hsorteq]

/-- C5: the fingerprint is invariant under key insertion order inside
`options` and `context`: two requests with the same operation type and
content whose options (resp. context) mappings hold the same key-value
pairs in any order — with distinct keys, as in any JS object — produce
equal fingerprints, because canonicalization sorts mapping keys. -/
theorem fingerprint_key_order_invariant (r1 r2 : ValidationRequest)
    (ht : r1.type = r2.type) (hc : r1.content = r2.content)
    (hop : (r1.options.getD .nil).toList.Perm ((r2.options.getD .nil).toList))
    (hond : (((r1.options.getD .nil).toList.map Prod.fst)).Nodup)
    (hcp : (r1.context.getD .nil).toList.Perm ((r2.context.getD .nil).toList))
    (hcnd : (((r1.context.getD .nil).toList.map Prod.fst)).Nodup) :
    computeFingerprint r1 = computeFingerprint r2 := by
  unfold computeFingerprint
  rw [ht, hc, ss_jobj_eq_of_perm _ _ hop hond, ss_jobj_eq_of_perm _ _ hcp hcnd]

/-- Options mapping `{b: 1, a: "x"}` in construction order b, a. -/
def c5OptsA : JObj := .cons "b" (.jnum 1) (.cons "a" (.jstr "x") .nil)

/-- The same mapping constructed in the order a, b. -/
def c5OptsB : JObj := .cons "a" (.jstr "x") (.cons "b" (.jnum 1) .nil)

/-- Request with options in order b, a. -/
def c5Req1 : ValidationRequest :=
  { type := "csv.timeseries.ga4.v1", content := "text:x", options := some c5OptsA }

/-- Request with options in order a, b. -/
def c5Req2 : ValidationRequest :=
  { type := "csv.timeseries.ga4.v1", content := "text:x", options := some c5OptsB }

/-- Witness for C5 at two concrete requests whose options differ only in
key insertion order. -/
theorem fingerprint_key_order_invariant_witness :
    c5Req1.type = c5Req2.type ∧ c5Req1.content = c5Req2.content ∧
    computeFingerprint c5Req1 = computeFingerprint c5Req2 :=
  ⟨rfl, rfl,
    fingerprint_key_order_invariant c5Req1 c5Req2 rfl rfl
      (List.Perm.swap ("a", JValue.jstr "x") ("b", JValue.jnum 1) [])
      (by decide) (List.Perm.refl []) List.nodup_nil⟩

/-! ### Claims C6 and C10 — the finding-code inventory of the engine

C6, as stated, lists the spec's table, which names `EMPTY_CONTENT` and
`NOT_SORTED_BY_KEY`; the code emits `EMPTY_CSV` and `NOT_SORTED_BY_DATE`
instead.  C10 observes that the `EMPTY_CSV` branch is unreachable because
`parseCSV` always returns at least one row. -/

/-- The codes the engine can actually emit (the `EMPTY_CSV` branch is
excluded here — it is dead code, see `parse_rows_never_empty`). -/
def reachableCodes : List String :=
  ["INVALID_CONTENT_ENCODING", "MISSING_REQUIRED_HEADERS", "MISSING_OPTIONAL_HEADER",
   "MAX_ROWS_EXCEEDED", "INVALID_ROW_FORMAT", "INVALID_DATE_FORMAT", "DUPLICATE_DATE",
   "INVALID_SESSIONS_VALUE", "INVALID_USERS_VALUE", "INVALID_PAGEVIEWS_VALUE",
   "NOT_SORTED_BY_DATE"]

/-- A finding's code is reachable and its severity is warning exactly for
`MISSING_OPTIONAL_HEADER`. -/
def findingOk (f : Finding) : Bool :=
  decide (f.code ∈ reachableCodes) &&
  ((f.level == Level.warning) == (f.code == "MISSING_OPTIONAL_HEADER"))

theorem findingOk_invalidRowFormatF (n : Nat) : findingOk (invalidRowFormatF n) = true := rfl

theorem findingOk_invalidDateF (n : Nat) (c : Option String) :
    findingOk (invalidDateF n c) = true := rfl

theorem findingOk_duplicateDateF (n : Nat) (d : String) :
    findingOk (duplicateDateF n d) = true := rfl

theorem findingOk_sessions (n : Nat) (c : Option String) :
    findingOk (invalidFieldF "sessions" "INVALID_SESSIONS_VALUE" n c) = true := rfl

theorem findingOk_users (n : Nat) (c : Option String) :
    findingOk (invalidFieldF "users" "INVALID_USERS_VALUE" n c) = true := rfl

theorem findingOk_pageviews (n : Nat) (c : Option String) :
    findingOk (invalidFieldF "pageviews" "INVALID_PAGEVIEWS_VALUE" n c) = true := rfl

theorem findingOk_missingRequiredF (l : List String) :
    findingOk (missingRequiredF l) = true := rfl

theorem findingOk_maxRowsF (m : Int) (n : Nat) : findingOk (maxRowsF m n) = true := rfl

theorem findingOk_invalidEncodingF : findingOk invalidEncodingF = true := rfl

theorem findingOk_missingOptionalF : findingOk missingOptionalF = true := rfl

theorem findingOk_notSortedF : findingOk notSortedF = true := rfl

theorem all_append_one {P : Finding → Bool} {fs : List Finding} {f : Finding}
    (h : fs.all P = true) (hf : P f = true) : (fs ++ [f]).all P = true := by
  simp [List.all_append, h, hf]

/-- The per-row numeric checks only append findings that satisfy
`findingOk`. -/
theorem rowNumericChecks_all {sIdx uIdx pIdx : Int} {row : List String} {n : Nat}
    {fs : List Finding} (h : fs.all findingOk = true) :
    (rowNumericChecks sIdx uIdx pIdx row n fs).all findingOk = true := by
  unfold rowNumericChecks
  dsimp only
  repeat' split
  all_goals
    simp [List.all_append, h, findingOk_sessions, findingOk_users, findingOk_pageviews]

/-- The row loop preserves the finding invariant. -/
theorem processRows_all (opts : GA4Options) (dI sI uI pI : Int) :
    ∀ (rows : List (List String)) (n : Nat) (fs : List Finding) (dates seen : List String),
      fs.all findingOk = true →
      ∀ out, processRows opts dI sI uI pI rows n fs dates seen = .ok out →
        out.1.all findingOk = true := by
  intro rows
  induction rows with
  | nil =>
    intro n fs dates seen h out hout
    rw [processRows] at hout
    simp only [Except.ok.injEq] at hout
    rw [← hout]
    exact h
  | cons row rest ih =>
    intro n fs dates seen h out hout
    rw [processRows] at hout
    split at hout
    · exact ih _ _ _ _ (all_append_one h (findingOk_invalidRowFormatF n)) out hout
    · split at hout
      · exact ih _ _ _ _
          (rowNumericChecks_all (all_append_one h (findingOk_invalidDateF n none))) out hout
      · split at hout
        · exact absurd hout (by simp)
        · exact ih _ _ _ _
            (rowNumericChecks_all (all_append_one h (findingOk_invalidDateF n (some _)))) out hout
        · split at hout
          · refine ih _ _ _ _ (rowNumericChecks_all ?_) out hout
            split
            · exact all_append_one h (findingOk_duplicateDateF n _)
            · exact h
          · exact ih _ _ _ _ (rowNumericChecks_all h) out hout

/-- `String.prototype.split` never yields an empty array. -/
theorem splitChar_ne_nil (sep : Char) (l : List Char) : splitChar sep l ≠ [] := by
  cases l with
  | nil => simp [splitChar]
  | cons c rest =>
    rw [splitChar]
    split
    · simp
    · split <;> simp

/-- `parseCSV` always returns at least one row. -/
theorem parseCSV_ne_nil (s : String) : parseCSV s ≠ [] := by
  unfold parseCSV
  intro h
  exact splitChar_ne_nil '\n' _ (List.map_eq_nil_iff.mp h)

/-- Every finding of any engine run has a reachable code, warning-level
exactly for `MISSING_OPTIONAL_HEADER`. -/
theorem engine_findings_ok (content : String) (options : GA4Options) :
    (engineFindings (validateGA4CSV content options)).all findingOk = true := by
  have hf0 : ∀ c : Bool, ((if c = true then [missingOptionalF] else []).all findingOk) = true := by
    intro c; cases c <;> rfl
  unfold validateGA4CSV
  cases hdec : decodeContent content with
  | none => rfl
  | some csvText =>
    dsimp only
    cases hp : parseCSV csvText with
    | nil => exact absurd hp (parseCSV_ne_nil csvText)
    | cons headers dataRows =>
      dsimp only
      split
      · simp [engineFindings, buildErrorResponse, findingOk_missingRequiredF]
      · split
        · simp [engineFindings, buildErrorResponse, List.all_append, findingOk_maxRowsF,
            findingOk_missingOptionalF, hf0]
          intro x _ _ hx
          subst hx
          rfl
        · cases hpr : processRows options (jsIndexOf headers "date")
            (jsIndexOf headers "sessions") (jsIndexOf headers "users")
            (jsIndexOf headers "pageviews") dataRows 2
            (if (!headers.contains "pageviews" && !options.allowPageviewsMissing) = true
             then [missingOptionalF] else []) [] [] with
          | error e => simp [engineFindings]
          | ok pr =>
            obtain ⟨f1, dates⟩ := pr
            have h1 : f1.all findingOk = true :=
              processRows_all options _ _ _ _ dataRows 2 _ [] [] (hf0 _) (f1, dates) hpr
            simp [engineFindings, List.all_append, h1]
            intro x _ _ _ hx
            subst hx
            rfl

/-- The claim's finding-code table, exactly as the spec writes it
(`INVALID_<FIELD>_VALUE` instantiated at the three numeric fields). -/
def claimedCodes : List String :=
  ["INVALID_CONTENT_ENCODING", "EMPTY_CONTENT", "MISSING_REQUIRED_HEADERS",
   "INVALID_ROW_FORMAT", "INVALID_DATE_FORMAT", "DUPLICATE_DATE",
   "INVALID_SESSIONS_VALUE", "INVALID_USERS_VALUE", "INVALID_PAGEVIEWS_VALUE",
   "NOT_SORTED_BY_KEY", "MAX_ROWS_EXCEEDED", "MISSING_OPTIONAL_HEADER"]

/-- The table with the two codes the code actually uses: `EMPTY_CSV` for
`EMPTY_CONTENT` and `NOT_SORTED_BY_DATE` for `NOT_SORTED_BY_KEY`. -/
def amendedCodes : List String :=
  ["INVALID_CONTENT_ENCODING", "EMPTY_CSV", "MISSING_REQUIRED_HEADERS",
   "INVALID_ROW_FORMAT", "INVALID_DATE_FORMAT", "DUPLICATE_DATE",
   "INVALID_SESSIONS_VALUE", "INVALID_USERS_VALUE", "INVALID_PAGEVIEWS_VALUE",
   "NOT_SORTED_BY_DATE", "MAX_ROWS_EXCEEDED", "MISSING_OPTIONAL_HEADER"]

/-- C6 counterexample: an engine run (unsorted dates with
`requireSortedByDateAsc`) emits the code `NOT_SORTED_BY_DATE`, which is
not in the claim's table (the table says `NOT_SORTED_BY_KEY`). -/
theorem finding_code_table_counterexample :
    ((engineFindings (validateGA4CSV
        "text:date,sessions,users,pageviews\n2024-01-02,1,1,1\n2024-01-01,1,1,1"
        { requireSortedByDateAsc := true })).map fun f => f.code) =
      ["NOT_SORTED_BY_DATE"] ∧
    claimedCodes.contains "NOT_SORTED_BY_DATE" = false :=
  ⟨rfl, rfl⟩

/-- C6 (amended): every finding the Validation Engine can emit carries a
code from the spec's table with `EMPTY_CONTENT` read as `EMPTY_CSV` and
`NOT_SORTED_BY_KEY` as `NOT_SORTED_BY_DATE`, and warning severity occurs
exactly for `MISSING_OPTIONAL_HEADER`. -/
theorem finding_codes_in_table (content : String) (options : GA4Options) :
    (engineFindings (validateGA4CSV content options)).all (fun f =>
      decide (f.code ∈ amendedCodes) &&
      ((f.level == Level.warning) == (f.code == "MISSING_OPTIONAL_HEADER"))) = true := by
  have h := engine_findings_ok content options
  rw [List.all_eq_true] at h ⊢
  intro f hf
  have hok := h f hf
  rw [findingOk, Bool.and_eq_true] at hok
  obtain ⟨h1, h2⟩ := hok
  rw [Bool.and_eq_true]
  refine ⟨?_, h2⟩
  rw [decide_eq_true_eq] at h1 ⊢
  simp [reachableCodes] at h1
  rcases h1 with h|h|h|h|h|h|h|h|h|h|h <;> simp [amendedCodes, h]

/-- C10: `parseCSV` always returns a non-empty row list, so the
`EMPTY_CSV` branch of `validateGA4CSV` is unreachable — no run ever emits
that code — and the empty payload `"text:"` is reported as
`MISSING_REQUIRED_HEADERS` with `rowCount = 0`. -/
theorem parse_rows_never_empty :
    (∀ s : String, (parseCSV s).isEmpty = false) ∧
    (∀ (content : String) (options : GA4Options),
      (engineFindings (validateGA4CSV content options)).all
        (fun f => f.code != "EMPTY_CSV") = true) ∧
    ((validateGA4CSV "text:" {}).toOption.map fun r =>
      (r.findings.map fun f => f.code, r.summary.rows)) =
      some (["MISSING_REQUIRED_HEADERS"], 0) := by
  refine ⟨?_, ?_, rfl⟩
  · intro s
    cases hp : parseCSV s with
    | nil => exact absurd hp (parseCSV_ne_nil s)
    | cons a t => rfl
  · intro content options
    have h := engine_findings_ok content options
    rw [List.all_eq_true] at h ⊢
    intro f hf
    have hok := h f hf
    rw [findingOk, Bool.and_eq_true] at hok
    obtain ⟨h1, _⟩ := hok
    rw [decide_eq_true_eq] at h1
    simp [reachableCodes] at h1
    rcases h1 with h|h|h|h|h|h|h|h|h|h|h <;> rw [h] <;> rfl

/-! ### Claim C7 — the non-negative-integer check

As stated the claim is false: the check is the `^\d+$` regex *plus* a
`parseInt`/`toString` round-trip, which also rejects literals with
superfluous leading zeros (and, in JS, digit strings too large to be
represented exactly in a 64-bit float).  The counterexample is `"007"`.
The amended claim characterizes the accepted literals; the round-trip is
proven equivalent to the no-leading-zeros condition. -/

theorem natToDecAux_congr : ∀ n f1 f2, n < f1 → n < f2 →
    natToDecAux f1 n = natToDecAux f2 n := by
  intro n
  induction n using Nat.strong_induction_on with
  | _ n ih =>
    intro f1 f2 h1 h2
    cases f1 with
    | zero => omega
    | succ f1 =>
      cases f2 with
      | zero => omega
      | succ f2 =>
        rw [natToDecAux, natToDecAux]
        split
        · rfl
        · have h10 : 10 ≤ n := by omega
          have hlt : n / 10 < n := by omega
          rw [ih (n / 10) hlt f1 f2 (by omega) (by omega)]

theorem natToDec_lt10 {n : Nat} (h : n < 10) : natToDec n = [Nat.digitChar n] := by
  rw [natToDec, natToDecAux, if_pos h]

theorem natToDec_ge10 {n : Nat} (h : 10 ≤ n) :
    natToDec n = natToDec (n / 10) ++ [Nat.digitChar (n % 10)] := by
  rw [natToDec, natToDecAux, if_neg (by omega)]
  rw [natToDecAux_congr (n / 10) n (n / 10 + 1) (by omega) (by omega)]
  rfl

theorem natToDec_ne_nil (n : Nat) : natToDec n ≠ [] := by
  rcases Nat.lt_or_ge n 10 with h | h
  · rw [natToDec_lt10 h]; simp
  · rw [natToDec_ge10 h]; simp

theorem digitChar_toNat_small : ∀ k, k < 10 → (Nat.digitChar k).toNat = 48 + k := by
  intro k h
  interval_cases k <;> rfl

theorem digitChar_toNat (c : Char) (h : isDigitChar c = true) :
    Nat.digitChar (c.toNat - 48) = c := by
  have hb : 48 ≤ c.toNat ∧ c.toNat ≤ 57 := by
    rw [isDigitChar, Bool.and_eq_true, decide_eq_true_eq, decide_eq_true_eq] at h
    exact h
  have h10 : c.toNat - 48 < 10 := by omega
  have hv := digitChar_toNat_small (c.toNat - 48) h10
  apply Char.ext
  apply UInt32.ext
  show (Nat.digitChar (c.toNat - 48)).toNat = c.toNat
  omega

theorem natToDec_head_ne_zero : ∀ n, 0 < n → (natToDec n).headD '0' ≠ '0' := by
  intro n
  induction n using Nat.strong_induction_on with
  | _ n ih =>
    intro hpos
    rcases Nat.lt_or_ge n 10 with h | h
    · rw [natToDec_lt10 h]
      interval_cases n <;> decide
    · rw [natToDec_ge10 h]
      have hne := natToDec_ne_nil (n / 10)
      have hd : ((natToDec (n / 10)) ++ [Nat.digitChar (n % 10)]).headD '0'
          = (natToDec (n / 10)).headD '0' := by
        cases hx : natToDec (n / 10) with
        | nil => exact absurd hx hne
        | cons a t => simp
      rw [hd]
      exact ih (n / 10) (by omega) (by omega)

theorem natOfDigits_append_one : ∀ (l : List Char) (c : Char) (acc : Nat),
    natOfDigits (l ++ [c]) acc = (natOfDigits l acc) * 10 + (c.val.toNat - 48) := by
  intro l
  induction l with
  | nil => intro c acc; rfl
  | cons d t ih => intro c acc; rw [List.cons_append, natOfDigits, natOfDigits, ih]

theorem natOfDigits_ge_acc : ∀ (l : List Char) (acc : Nat), acc ≤ natOfDigits l acc := by
  intro l
  induction l with
  | nil => intro acc; exact Nat.le_refl acc
  | cons d t ih =>
    intro acc
    rw [natOfDigits]
    calc acc ≤ acc * 10 + (d.val.toNat - 48) := by omega
    _ ≤ _ := ih _

theorem char_ne_zero_toNat {c : Char} (hd : isDigitChar c = true) (h : c ≠ '0') :
    49 ≤ c.toNat := by
  rw [isDigitChar, Bool.and_eq_true, decide_eq_true_eq, decide_eq_true_eq] at hd
  rcases Nat.lt_or_ge c.toNat 49 with hlt | hge
  · exfalso
    have h48 : c.toNat = 48 := by omega
    apply h
    apply Char.ext
    apply UInt32.ext
    show c.toNat = 48
    exact h48
  · exact hge

theorem natOfDigits_head_pos {c : Char} {l : List Char}
    (hd : isDigitChar c = true) (h : c ≠ '0') : 0 < natOfDigits (c :: l) 0 := by
  rw [natOfDigits]
  have h49 := char_ne_zero_toNat hd h
  have h49v : 49 ≤ c.val.toNat := h49
  calc 0 < 0 * 10 + (c.val.toNat - 48) := by omega
  _ ≤ _ := natOfDigits_ge_acc l _

theorem natToDec_natOfDigits : ∀ l : List Char, l ≠ [] → l.all isDigitChar = true →
    (l.headD '0' ≠ '0' ∨ l = ['0']) → natToDec (natOfDigits l 0) = l := by
  intro l
  induction l using List.reverseRecOn with
  | nil => intro h; exact absurd rfl h
  | append_singleton l c ih =>
    intro _ hdig hlead
    rw [List.all_append] at hdig
    rw [Bool.and_eq_true] at hdig
    obtain ⟨hdl, hdc⟩ := hdig
    have hc : isDigitChar c = true := by simpa using hdc
    by_cases hl : l = []
    · subst hl
      have hb : 48 ≤ c.toNat ∧ c.toNat ≤ 57 := by
        rw [isDigitChar, Bool.and_eq_true, decide_eq_true_eq, decide_eq_true_eq] at hc
        exact hc
      have hval : natOfDigits ([] ++ [c]) 0 = c.toNat - 48 := by
        show natOfDigits [c] 0 = c.toNat - 48
        show natOfDigits [] (0 * 10 + (c.val.toNat - 48)) = c.toNat - 48
        show 0 * 10 + (c.val.toNat - 48) = c.toNat - 48
        have hcv : c.val.toNat = c.toNat := rfl
        omega
      rw [hval, natToDec_lt10 (by omega), digitChar_toNat c hc]
      rfl
    · obtain ⟨c0, t, rfl⟩ : ∃ c0 t, l = c0 :: t := by
        cases l with
        | nil => exact absurd rfl hl
        | cons a b => exact ⟨a, b, rfl⟩
      have hlead2 : (c0 :: t).headD '0' ≠ '0' := by
        rcases hlead with h | h
        · simpa using h
        · exact absurd h (by simp)
      have hc0 : c0 ≠ '0' := by simpa using hlead2
      have hc0d : isDigitChar c0 = true := by
        rw [List.all_cons, Bool.and_eq_true] at hdl
        exact hdl.1
      have hpos : 0 < natOfDigits (c0 :: t) 0 := natOfDigits_head_pos hc0d hc0
      have hb : 48 ≤ c.toNat ∧ c.toNat ≤ 57 := by
        rw [isDigitChar, Bool.and_eq_true, decide_eq_true_eq, decide_eq_true_eq] at hc
        exact hc
      have hval := natOfDigits_append_one (c0 :: t) c 0
      have hcv : c.val.toNat = c.toNat := rfl
      have h10 : 10 ≤ natOfDigits ((c0 :: t) ++ [c]) 0 := by
        rw [hval]; omega
      have hdiv : natOfDigits ((c0 :: t) ++ [c]) 0 / 10 = natOfDigits (c0 :: t) 0 := by
        rw [hval]; omega
      have hmod : natOfDigits ((c0 :: t) ++ [c]) 0 % 10 = c.toNat - 48 := by
        rw [hval]; omega
      rw [natToDec_ge10 h10, hdiv, hmod, digitChar_toNat c hc,
        ih hl hdl (Or.inl hlead2)]

/-- The `parseInt`/`toString` round-trip accepts exactly the nonempty
digit strings without superfluous leading zeros. -/
theorem isNonNegativeInteger_iff (v : String) :
    isNonNegativeInteger v = true ↔
      (v.data ≠ [] ∧ v.data.all isDigitChar = true ∧
        (v.data.headD '0' ≠ '0' ∨ v = "0")) := by
  constructor
  · intro h
    rw [isNonNegativeInteger, Bool.and_eq_true, Bool.and_eq_true] at h
    obtain ⟨⟨h1, h2⟩, h3⟩ := h
    have h1' : v.data ≠ [] := by simpa using h1
    refine ⟨h1', h2, ?_⟩
    have hmk : String.mk (natToDec (natOfDigits v.data 0)) = v := eq_of_beq h3
    have hdata : natToDec (natOfDigits v.data 0) = v.data := congrArg String.data hmk
    by_cases h0 : v = "0"
    · right; exact h0
    · left
      intro hhead
      cases hd : v.data with
      | nil => exact h1' hd
      | cons c0 rest =>
        have hc0 : c0 = '0' := by rw [hd] at hhead; simpa using hhead
        cases rest with
        | nil =>
          apply h0
          apply strExt
          rw [hd, hc0]
        | cons c1 t =>
          rcases Nat.eq_zero_or_pos (natOfDigits v.data 0) with hz | hp
          · rw [hz, natToDec_lt10 (by omega)] at hdata
            rw [hd] at hdata
            exact absurd hdata (by simp)
          · have hh := natToDec_head_ne_zero _ hp
            rw [hdata, hd, hc0] at hh
            simp at hh
  · intro h
    obtain ⟨h1, h2, h3⟩ := h
    rw [isNonNegativeInteger, Bool.and_eq_true, Bool.and_eq_true]
    refine ⟨⟨by simpa using h1, h2⟩, ?_⟩
    have h3' : v.data.headD '0' ≠ '0' ∨ v.data = ['0'] := by
      rcases h3 with h | h
      · left; exact h
      · right; rw [h]
    rw [natToDec_natOfDigits v.data h1 h2 h3']
    cases v
    exact beq_self_eq_true _

/-- C7 (amended): for every numeric-field literal of at most 15 digits
(within which the exact-integer model provably coincides with the 64-bit
float arithmetic of `parseInt`/`toString`), the check accepts the literal
iff it matches `^\d+$` *and* carries no superfluous leading zero (the
literal is `"0"` or does not start with `'0'`).  Accepted values produce
no `INVALID_<FIELD>_VALUE` finding and rejected values produce one — see
`rowNumericChecks`, which appends the finding exactly when the check
rejects. -/
theorem nonneg_integer_check_characterization (v : String)
    (_hlen : v.data.length ≤ 15) :
    isNonNegativeInteger v = true ↔
      (v.data ≠ [] ∧ v.data.all isDigitChar = true ∧
        (v.data.headD '0' ≠ '0' ∨ v = "0")) :=
  isNonNegativeInteger_iff v

/-- Witness for the amended C7 at a concrete literal. -/
theorem nonneg_integer_check_witness :
    "42".data.length ≤ 15 ∧
    (isNonNegativeInteger "42" = true ↔
      ("42".data ≠ [] ∧ "42".data.all isDigitChar = true ∧
        ("42".data.headD '0' ≠ '0' ∨ "42" = "0"))) :=
  ⟨by decide, nonneg_integer_check_characterization "42" (by decide)⟩

/-- C7 counterexample: `"007"` matches `^\d+$` (nonempty, all digits)
but the check rejects it, and a run with `sessions = "007"` emits an
`INVALID_SESSIONS_VALUE` finding. -/
theorem nonneg_integer_regex_counterexample :
    "007".data.isEmpty = false ∧ "007".data.all isDigitChar = true ∧
    isNonNegativeInteger "007" = false ∧
    ((engineFindings (validateGA4CSV "text:date,sessions,users\n2024-01-01,007,1" {})).map
      fun f => f.code) = ["MISSING_OPTIONAL_HEADER", "INVALID_SESSIONS_VALUE"] :=
  ⟨rfl, rfl, rfl, rfl⟩

/-! ### Claim C8 — the row-count ceiling -/

/-- The codes of per-row (and global-order) checks, which a
`MAX_ROWS_EXCEEDED` stop must not emit. -/
def perRowCodes : List String :=
  ["INVALID_ROW_FORMAT", "INVALID_DATE_FORMAT", "DUPLICATE_DATE",
   "INVALID_SESSIONS_VALUE", "INVALID_USERS_VALUE", "INVALID_PAGEVIEWS_VALUE",
   "NOT_SORTED_BY_DATE"]

/-- C8: when the content decodes, the required headers are present, and
the data-row count exceeds `maxRows` (default 100000), the engine emits
exactly one `MAX_ROWS_EXCEEDED` finding (an error), no per-row findings
(it stops before the per-row checks), and still reports `rows` as the
actual data-row count. -/
theorem max_rows_exceeded (content : String) (options : GA4Options)
    (csvText : String) (headers : List String) (dataRows : List (List String))
    (hdec : decodeContent content = some csvText)
    (hp : parseCSV csvText = headers :: dataRows)
    (hhdr : requiredHeaders.filter (fun h => !(headers.contains h)) = [])
    (hmax : (dataRows.length : Int) > options.maxRows.getD DEFAULT_MAX_ROWS) :
    ((validateGA4CSV content options).map fun r =>
      ((r.findings.filter fun f => f.code == "MAX_ROWS_EXCEEDED").length,
       (r.findings.filter fun f => decide (f.code ∈ perRowCodes)).length,
       r.summary.rows)) = .ok (1, 0, dataRows.length) := by
  unfold validateGA4CSV
  rw [hdec]
  dsimp only
  rw [hp]
  dsimp only
  rw [hhdr]
  rw [if_neg (by simp)]
  rw [if_pos hmax]
  simp [buildErrorResponse, Except.map, List.filter_append, maxRowsF, missingOptionalF,
    perRowCodes]
  constructor <;> intro a _ _ ha <;> subst ha <;> simp

/-- Content of the C8 witness: 2 data rows. -/
def c8Content : String :=
  "text:date,sessions,users,pageviews\n2024-01-01,1,1,1\n2024-01-02,2,2,2"

/-- The decoded text of `c8Content`. -/
def c8Text : String :=
  "date,sessions,users,pageviews\n2024-01-01,1,1,1\n2024-01-02,2,2,2"

/-- Header row of `c8Text`. -/
def c8Headers : List String := ["date", "sessions", "users", "pageviews"]

/-- Data rows of `c8Text`. -/
def c8Rows : List (List String) :=
  [["2024-01-01", "1", "1", "1"], ["2024-01-02", "2", "2", "2"]]

/-- Witness for C8, which is also the spec's end-to-end example 4:
`maxRows = 1` with 2 data rows gives one `MAX_ROWS_EXCEEDED`, no per-row
findings, and `rows = 2`. -/
theorem max_rows_exceeded_witness :
    decodeContent c8Content = some c8Text ∧
    parseCSV c8Text = c8Headers :: c8Rows ∧
    requiredHeaders.filter (fun h => !(c8Headers.contains h)) = [] ∧
    ((c8Rows.length : Int) > ({ maxRows := some 1 } : GA4Options).maxRows.getD DEFAULT_MAX_ROWS) ∧
    ((validateGA4CSV c8Content { maxRows := some 1 }).map fun r =>
      ((r.findings.filter fun f => f.code == "MAX_ROWS_EXCEEDED").length,
       (r.findings.filter fun f => decide (f.code ∈ perRowCodes)).length,
       r.summary.rows)) = .ok (1, 0, 2) :=
  ⟨rfl, rfl, rfl, by decide,
    max_rows_exceeded c8Content { maxRows := some 1 } c8Text c8Headers c8Rows
      rfl rfl rfl (by decide)⟩

/-! ### Claim C9 — equivalence of the two middleware versions

As stated (over *every* sequential history of raw
`checkIdempotency`/`storeIdempotentResponse` calls from an empty store)
the claim is false: after two stores under one token with different
fingerprints — a state the orchestrator never produces but a raw history
can — the list-keys version still finds the first fingerprint's exact
record (Hit) while the fingerprint-record version sees the overwritten
fingerprint record (Conflict).  The amended claim restricts histories to
the write-once-per-token discipline the orchestrator maintains (all
stores under one (caller, token) carry one fingerprint), and to
colon-free hashes and tokens (real API-key hashes and fingerprints are
hex; a token containing `:` can alias another token's key prefix).

The store states reachable by the two versions are characterized over an
explicit list of store records (`SRec`, most recent first). -/

/-- Does the string avoid the `:` separator of the KV key templates? -/
def colonFreeB (s : String) : Bool := s.data.all fun c => c != ':'

/-- One executed store call: caller hash, token, fingerprint, response. -/
structure SRec where
  h : String
  k : String
  fp : String
  resp : ValidationResponse

def SRecOkB (o : SRec) : Bool := colonFreeB o.h && colonFreeB o.k

def matchHKF (h k f : String) (o : SRec) : Bool := o.h == h && o.k == k && o.fp == f

def matchHK (h k : String) (o : SRec) : Bool := o.h == h && o.k == k

/-- The KV store after a list of stores (most recent first), list-keys
version. -/
def stV1 : List SRec → KV
  | [] => []
  | o :: S => kvPut (stV1 S) (idemKey o.h o.k o.fp) (.meta ⟨o.k, o.fp, o.resp⟩)

/-- The KV store after a list of stores, fingerprint-record version. -/
def stV2 : List SRec → KV
  | [] => []
  | o :: S =>
    kvPut (kvPut (stV2 S) (idemKey o.h o.k o.fp) (.meta ⟨o.k, o.fp, o.resp⟩))
      (fpRecordKey o.h o.k) (.text o.fp)

/-- Unique decomposition of a colon-separated prefix: if `b ++ ':' ++ y`
is a prefix of `a ++ ':' ++ x` and neither `a` nor `b` contains a colon,
then `b = a` and `y` is a prefix of `x`. -/
theorem colon_pref_split : ∀ (b a x y : List Char), (∀ c ∈ a, c ≠ ':') → (∀ c ∈ b, c ≠ ':') →
    (b ++ ':' :: y).isPrefixOf (a ++ ':' :: x) = true → b = a ∧ y.isPrefixOf x = true := by
  intro b
  induction b with
  | nil =>
    intro a x y ha _ hpre
    cases a with
    | nil =>
      refine ⟨rfl, ?_⟩
      simpa [List.isPrefixOf] using hpre
    | cons c as =>
      exfalso
      rw [List.nil_append, List.cons_append, List.isPrefixOf, Bool.and_eq_true] at hpre
      have : (':' : Char) = c := by
        have := hpre.1
        exact beq_iff_eq.mp this
      exact ha c (List.mem_cons_self c as) this.symm
  | cons d bs ih =>
    intro a x y ha hb hpre
    cases a with
    | nil =>
      exfalso
      rw [List.cons_append, List.nil_append, List.isPrefixOf, Bool.and_eq_true] at hpre
      exact hb d (List.mem_cons_self d bs) (beq_iff_eq.mp hpre.1)
    | cons c as =>
      rw [List.cons_append, List.cons_append, List.isPrefixOf, Bool.and_eq_true] at hpre
      have hdc : d = c := beq_iff_eq.mp hpre.1
      have := ih as x y (fun e he => ha e (List.mem_cons_of_mem c he))
        (fun e he => hb e (List.mem_cons_of_mem d he)) hpre.2
      exact ⟨by rw [hdc, this.1], this.2⟩

/-- Unique decomposition at the first colon of equal concatenations. -/
theorem colon_eq_split : ∀ (a b x y : List Char), (∀ c ∈ a, c ≠ ':') → (∀ c ∈ b, c ≠ ':') →
    a ++ ':' :: x = b ++ ':' :: y → a = b ∧ x = y := by
  intro a
  induction a with
  | nil =>
    intro b x y _ hb heq
    cases b with
    | nil => simpa using heq
    | cons d bs =>
      exfalso
      rw [List.nil_append, List.cons_append] at heq
      have : (':' : Char) = d := (List.cons.injEq _ _ _ _ ▸ heq).1
      exact hb d (List.mem_cons_self d bs) this.symm
  | cons c as ih =>
    intro b x y ha hb heq
    cases b with
    | nil =>
      exfalso
      rw [List.cons_append, List.nil_append] at heq
      have : c = ':' := (List.cons.injEq _ _ _ _ ▸ heq).1
      exact ha c (List.mem_cons_self c as) this
    | cons d bs =>
      rw [List.cons_append, List.cons_append] at heq
      have h1 : c = d := (List.cons.injEq _ _ _ _ ▸ heq).1
      have h2 := (List.cons.injEq _ _ _ _ ▸ heq).2
      have := ih bs x y (fun e he => ha e (List.mem_cons_of_mem c he))
        (fun e he => hb e (List.mem_cons_of_mem d he)) h2
      exact ⟨by rw [h1, this.1], this.2⟩

theorem colonFreeB_chars {s : String} (h : colonFreeB s = true) : ∀ c ∈ s.data, c ≠ ':' := by
  rw [colonFreeB, List.all_eq_true] at h
  intro c hc
  simpa using h c hc

theorem isPrefixOf_cons2 (c : Char) (l1 l2 : List Char) :
    (c :: l1).isPrefixOf (c :: l2) = l1.isPrefixOf l2 := by
  simp [List.isPrefixOf]

theorem idemKey_eq_iff {h k h2 k2 : String} (f f2 : String)
    (ch : colonFreeB h = true) (ck : colonFreeB k = true)
    (ch2 : colonFreeB h2 = true) (ck2 : colonFreeB k2 = true) :
    idemKey h k f = idemKey h2 k2 f2 ↔ (h = h2 ∧ k = k2 ∧ f = f2) := by
  constructor
  · intro heq
    have hd := congrArg String.data heq
    rw [idemKey_data, idemKey_data] at hd
    simp only [List.cons.injEq, true_and] at hd
    have h1 := colon_eq_split _ _ _ _ (colonFreeB_chars ch) (colonFreeB_chars ch2) hd
    have h2 := colon_eq_split _ _ _ _ (colonFreeB_chars ck) (colonFreeB_chars ck2) h1.2
    exact ⟨strExt h1.1, strExt h2.1, strExt h2.2⟩
  · rintro ⟨rfl, rfl, rfl⟩
    rfl

theorem fpRecordKey_eq_iff {h k h2 k2 : String}
    (ch : colonFreeB h = true) (ch2 : colonFreeB h2 = true) :
    fpRecordKey h k = fpRecordKey h2 k2 ↔ (h = h2 ∧ k = k2) := by
  constructor
  · intro heq
    have hd := congrArg String.data heq
    rw [fpRecordKey_data, fpRecordKey_data] at hd
    simp only [List.cons.injEq, true_and] at hd
    have h1 := colon_eq_split _ _ _ _ (colonFreeB_chars ch) (colonFreeB_chars ch2) hd
    exact ⟨strExt h1.1, strExt h1.2⟩
  · rintro ⟨rfl, rfl⟩
    rfl

theorem strStarts_stem_iff {h k h2 k2 : String} (f : String)
    (ch : colonFreeB h = true) (ck : colonFreeB k = true)
    (ch2 : colonFreeB h2 = true) (ck2 : colonFreeB k2 = true) :
    strStarts (idemKey h k f) (idemKeyStem h2 k2) = true ↔ (h2 = h ∧ k2 = k) := by
  constructor
  · intro hpre
    rw [strStarts, idemKey_data, idemKeyStem_data,
      isPrefixOf_cons2, isPrefixOf_cons2, isPrefixOf_cons2, isPrefixOf_cons2,
      isPrefixOf_cons2] at hpre
    have h1 := colon_pref_split _ _ _ _ (colonFreeB_chars ch) (colonFreeB_chars ch2) hpre
    have h2 := colon_pref_split _ _ _ _ (colonFreeB_chars ck) (colonFreeB_chars ck2) h1.2
    exact ⟨strExt h1.1, strExt h2.1⟩
  · rintro ⟨rfl, rfl⟩
    exact strStarts_idemKey_stem _ _ _

theorem beq_idemKey_srec (o : SRec) (h k f : String) (co : SRecOkB o = true)
    (ch : colonFreeB h = true) (ck : colonFreeB k = true) :
    (idemKey o.h o.k o.fp == idemKey h k f) = matchHKF h k f o := by
  rw [SRecOkB, Bool.and_eq_true] at co
  by_cases he : idemKey o.h o.k o.fp = idemKey h k f
  · obtain ⟨e1, e2, e3⟩ := (idemKey_eq_iff o.fp f co.1 co.2 ch ck).mp he
    rw [beq_iff_eq.mpr he, matchHKF, e1, e2, e3]
    simp
  · rw [beq_eq_false_iff_ne.mpr he]
    rcases hm : matchHKF h k f o with _ | _
    · rfl
    · exfalso
      rw [matchHKF, Bool.and_eq_true, Bool.and_eq_true] at hm
      exact he ((idemKey_eq_iff o.fp f co.1 co.2 ch ck).mpr
        ⟨beq_iff_eq.mp hm.1.1, beq_iff_eq.mp hm.1.2, beq_iff_eq.mp hm.2⟩)

theorem beq_fpRecordKey_srec (o : SRec) (h k : String) (co : SRecOkB o = true)
    (ch : colonFreeB h = true) :
    (fpRecordKey o.h o.k == fpRecordKey h k) = matchHK h k o := by
  rw [SRecOkB, Bool.and_eq_true] at co
  by_cases he : fpRecordKey o.h o.k = fpRecordKey h k
  · obtain ⟨e1, e2⟩ := (fpRecordKey_eq_iff co.1 ch).mp he
    rw [beq_iff_eq.mpr he, matchHK, e1, e2]
    simp
  · rw [beq_eq_false_iff_ne.mpr he]
    rcases hm : matchHK h k o with _ | _
    · rfl
    · exfalso
      rw [matchHK, Bool.and_eq_true] at hm
      exact he ((fpRecordKey_eq_iff co.1 ch).mpr
        ⟨beq_iff_eq.mp hm.1, beq_iff_eq.mp hm.2⟩)

theorem beq_idemKey_fpRecordKey (h1 k1 f1 h k : String) :
    (idemKey h1 k1 f1 == fpRecordKey h k) = false :=
  beq_eq_false_iff_ne.mpr fun he => fpRecordKey_ne_idemKey h k h1 k1 f1 he.symm

theorem strStarts_stem_srec (o : SRec) (h k : String) (co : SRecOkB o = true)
    (ch : colonFreeB h = true) (ck : colonFreeB k = true) :
    strStarts (idemKey o.h o.k o.fp) (idemKeyStem h k) = matchHK h k o := by
  rw [SRecOkB, Bool.and_eq_true] at co
  rcases hs : strStarts (idemKey o.h o.k o.fp) (idemKeyStem h k) with _ | _
  · rcases hm : matchHK h k o with _ | _
    · rfl
    · exfalso
      rw [matchHK, Bool.and_eq_true] at hm
      have := (strStarts_stem_iff o.fp co.1 co.2 ch ck).mpr
        ⟨(beq_iff_eq.mp hm.1).symm, (beq_iff_eq.mp hm.2).symm⟩
      rw [hs] at this
      exact Bool.noConfusion this
  · obtain ⟨e1, e2⟩ := (strStarts_stem_iff o.fp co.1 co.2 ch ck).mp hs
    rw [matchHK, e1, e2]
    simp

theorem find?_mono {α : Type} {p q : α → Bool} (himp : ∀ x, q x = true → p x = true) :
    ∀ (l : List α) (o : α), l.find? p = some o → q o = true → l.find? q = some o := by
  intro l
  induction l with
  | nil => intro o h _; simp [List.find?] at h
  | cons x t ih =>
    intro o hp hq
    cases hqx : q x
    · cases hpx : p x
      · rw [List.find?_cons_of_neg _ (by simp [hpx])] at hp
        rw [List.find?_cons_of_neg _ (by simp [hqx])]
        exact ih o hp hq
      · rw [List.find?_cons_of_pos _ hpx] at hp
        exfalso
        have hxo : x = o := by simpa using hp
        rw [hxo, hq] at hqx
        exact Bool.noConfusion hqx
    · have hpx : p x = true := himp x hqx
      rw [List.find?_cons_of_pos _ hpx] at hp
      rw [List.find?_cons_of_pos _ hqx]
      exact hp

theorem kvGet_cons (key k2 : String) (v : KVVal) (st : KV) :
    kvGet ((k2, v) :: st) key = if (k2 == key) = true then some v else kvGet st key := by
  rw [kvGet, kvGet]
  cases h : k2 == key
  · rw [List.find?_cons_of_neg _ (by simpa using h), if_neg (by simp [h])]
  · rw [List.find?_cons_of_pos _ (by simpa using h), if_pos (by simp [h])]
    rfl

theorem stV1_getMeta : ∀ (S : List SRec), (∀ o ∈ S, SRecOkB o = true) →
    ∀ h k f, colonFreeB h = true → colonFreeB k = true →
    kvGetMeta (stV1 S) (idemKey h k f) =
      (S.find? (matchHKF h k f)).map fun o => (⟨o.k, o.fp, o.resp⟩ : IdemMeta) := by
  intro S
  induction S with
  | nil => intro _ h k f _ _; rfl
  | cons o S ih =>
    intro hok h k f ch ck
    have hbeq := beq_idemKey_srec o h k f (hok o (List.mem_cons_self o S)) ch ck
    rw [stV1, kvPut, kvGetMeta, kvGet_cons, hbeq]
    cases hm : matchHKF h k f o
    · rw [if_neg (by simp [hm]), List.find?_cons_of_neg _ (by simp [hm])]
      exact ih (fun x hx => hok x (List.mem_cons_of_mem o hx)) h k f ch ck
    · rw [if_pos rfl, List.find?_cons_of_pos _ hm]
      rfl

theorem stV1_keys : ∀ (S : List SRec), (∀ o ∈ S, SRecOkB o = true) →
    ∀ h k, colonFreeB h = true → colonFreeB k = true →
    kvKeysWith (stV1 S) (idemKeyStem h k) =
      (S.filter (matchHK h k)).map fun o => idemKey o.h o.k o.fp := by
  intro S
  induction S with
  | nil => intro _ h k _ _; rfl
  | cons o S ih =>
    intro hok h k ch ck
    have hst := strStarts_stem_srec o h k (hok o (List.mem_cons_self o S)) ch ck
    have htail := ih (fun x hx => hok x (List.mem_cons_of_mem o hx)) h k ch ck
    rw [kvKeysWith] at htail
    rw [stV1, kvPut, kvKeysWith, List.map_cons, List.filter_cons, List.filter_cons]
    rw [hst]
    cases hm : matchHK h k o
    · rw [if_neg (by simp), if_neg (by simp)]
      exact htail
    · rw [if_pos rfl, if_pos rfl, List.map_cons, htail]

theorem stV2_getText : ∀ (S : List SRec), (∀ o ∈ S, SRecOkB o = true) →
    ∀ h k, colonFreeB h = true →
    kvGetText (stV2 S) (fpRecordKey h k) = (S.find? (matchHK h k)).map (·.fp) := by
  intro S
  induction S with
  | nil => intro _ h k _; rfl
  | cons o S ih =>
    intro hok h k ch
    have hbeq := beq_fpRecordKey_srec o h k (hok o (List.mem_cons_self o S)) ch
    have hfpne : (idemKey o.h o.k o.fp == fpRecordKey h k) = false :=
      beq_idemKey_fpRecordKey o.h o.k o.fp h k
    rw [stV2, kvPut, kvPut, kvGetText, kvGet_cons, kvGet_cons, hbeq, hfpne]
    cases hm : matchHK h k o
    · rw [if_neg (by simp [hm]), if_neg (by simp), List.find?_cons_of_neg _ (by simp [hm])]
      exact ih (fun x hx => hok x (List.mem_cons_of_mem o hx)) h k ch
    · rw [if_pos rfl, List.find?_cons_of_pos _ hm]
      rfl

theorem stV2_getMeta : ∀ (S : List SRec), (∀ o ∈ S, SRecOkB o = true) →
    ∀ h k f, colonFreeB h = true → colonFreeB k = true →
    kvGetMeta (stV2 S) (idemKey h k f) =
      (S.find? (matchHKF h k f)).map fun o => (⟨o.k, o.fp, o.resp⟩ : IdemMeta) := by
  intro S
  induction S with
  | nil => intro _ h k f _ _; rfl
  | cons o S ih =>
    intro hok h k f ch ck
    have hbeq := beq_idemKey_srec o h k f (hok o (List.mem_cons_self o S)) ch ck
    have hfpne : (fpRecordKey o.h o.k == idemKey h k f) = false :=
      beq_eq_false_iff_ne.mpr (fpRecordKey_ne_idemKey o.h o.k h k f)
    rw [stV2, kvPut, kvPut, kvGetMeta, kvGet_cons, kvGet_cons, hbeq, hfpne]
    rw [if_neg (by simp)]
    cases hm : matchHKF h k f o
    · rw [if_neg (by simp [hm]), List.find?_cons_of_neg _ (by simp [hm])]
      exact ih (fun x hx => hok x (List.mem_cons_of_mem o hx)) h k f ch ck
    · rw [if_pos rfl, List.find?_cons_of_pos _ hm]
      rfl

def Disc (S : List SRec) : Prop :=
  ∀ a ∈ S, ∀ b ∈ S, a.h = b.h → a.k = b.k → a.fp = b.fp

theorem matchHKF_imp_matchHK (h k f : String) :
    ∀ o, matchHKF h k f o = true → matchHK h k o = true := by
  intro o hm
  rw [matchHKF, Bool.and_eq_true, Bool.and_eq_true] at hm
  rw [matchHK, Bool.and_eq_true]
  exact ⟨hm.1.1, hm.1.2⟩

/-- Core equivalence: over any disciplined store list, one
`checkIdempotency` call observes the same outcome under both middleware
versions. -/
theorem check_equivalent (S : List SRec) (hok : ∀ o ∈ S, SRecOkB o = true) (hd : Disc S)
    (apiKey token f : String) (ch : colonFreeB (sha256 apiKey) = true)
    (ck : colonFreeB token = true) :
    checkOutcome (checkIdempotencyV1 (stV1 S) token apiKey f) =
      checkOutcome (checkIdempotencyV2 (stV2 S) token apiKey f) := by
  have hmeta1 := stV1_getMeta S hok (sha256 apiKey) token f ch ck
  have hmeta2 := stV2_getMeta S hok (sha256 apiKey) token f ch ck
  have htext := stV2_getText S hok (sha256 apiKey) token ch
  have hkeys := stV1_keys S hok (sha256 apiKey) token ch ck
  unfold checkIdempotencyV1 checkIdempotencyV2
  dsimp only
  cases hf : S.find? (matchHK (sha256 apiKey) token) with
  | none =>
    have hfkf : S.find? (matchHKF (sha256 apiKey) token f) = none := by
      rw [List.find?_eq_none] at hf ⊢
      intro x hx hpx
      exact hf x hx (matchHKF_imp_matchHK _ _ _ x hpx)
    have hfilter : S.filter (matchHK (sha256 apiKey) token) = [] := by
      rw [List.filter_eq_nil_iff]
      rw [List.find?_eq_none] at hf
      exact hf
    rw [hf] at htext
    rw [hfkf] at hmeta1
    rw [hfilter] at hkeys
    rw [hmeta1, htext, hkeys]
    rfl
  | some o =>
    have hoS : o ∈ S := List.mem_of_find?_eq_some hf
    have hmo : matchHK (sha256 apiKey) token o = true := List.find?_some hf
    rw [hf] at htext
    rw [htext]
    by_cases hfp : o.fp = f
    · have hq : matchHKF (sha256 apiKey) token f o = true := by
        rw [matchHK, Bool.and_eq_true] at hmo
        rw [matchHKF, Bool.and_eq_true, Bool.and_eq_true]
        exact ⟨⟨hmo.1, hmo.2⟩, beq_iff_eq.mpr hfp⟩
      have hfind : S.find? (matchHKF (sha256 apiKey) token f) = some o :=
        find?_mono (matchHKF_imp_matchHK _ _ _) S o hf hq
      rw [hfind] at hmeta1 hmeta2
      rw [hmeta1, hmeta2]
      simp [checkOutcome, hfp]
    · have hfkf : S.find? (matchHKF (sha256 apiKey) token f) = none := by
        rw [List.find?_eq_none]
        intro x hx hpx
        rw [matchHKF, Bool.and_eq_true, Bool.and_eq_true] at hpx
        rw [matchHK, Bool.and_eq_true] at hmo
        apply hfp
        have hxo : o.fp = x.fp := hd o hoS x hx
          (by rw [beq_iff_eq.mp hmo.1, beq_iff_eq.mp hpx.1.1])
          (by rw [beq_iff_eq.mp hmo.2, beq_iff_eq.mp hpx.1.2])
        rw [hxo]
        exact beq_iff_eq.mp hpx.2
      have hne : (o.fp != f) = true := by
        simpa using hfp
      rw [hfkf] at hmeta1
      rw [hmeta1]
      cases hfil : S.filter (matchHK (sha256 apiKey) token) with
      | nil =>
        exfalso
        have : o ∈ S.filter (matchHK (sha256 apiKey) token) :=
          List.mem_filter.mpr ⟨hoS, hmo⟩
        rw [hfil] at this
        exact absurd this (by simp)
      | cons a t =>
        rw [hfil] at hkeys
        rw [hkeys]
        simp [checkOutcome, hne]

/-- The store calls of a history (most recent first). -/
def storesOf : List IdemOp → List SRec
  | [] => []
  | .check _ _ _ :: rest => storesOf rest
  | .store a t f r :: rest => ⟨sha256 a, t, f, r⟩ :: storesOf rest

/-- Well-formedness of one call: caller hash and token colon-free. -/
def opOkB : IdemOp → Bool
  | .check a t _ => colonFreeB (sha256 a) && colonFreeB t
  | .store a t _ _ => colonFreeB (sha256 a) && colonFreeB t

def opsOkB (ops : List IdemOp) : Bool := ops.all opOkB

/-- Equivalence of full runs over a common prior store list. -/
theorem run_eq : ∀ (ops : List IdemOp) (S : List SRec),
    opsOkB ops = true → (∀ o ∈ S, SRecOkB o = true) →
    Disc (S ++ storesOf ops) →
    runV1 (stV1 S) ops = runV2 (stV2 S) ops := by
  intro ops
  induction ops with
  | nil => intro S _ _ _; rfl
  | cons op rest ih =>
    intro S hops hok hd
    rw [opsOkB, List.all_cons, Bool.and_eq_true] at hops
    have hrest : opsOkB rest = true := hops.2
    cases op with
    | check a t f =>
      have hco : colonFreeB (sha256 a) = true ∧ colonFreeB t = true := by
        have hh := hops.1
        rw [opOkB, Bool.and_eq_true] at hh
        exact hh
      have hDS : Disc S := fun x hx y hy =>
        hd x (List.mem_append_left _ hx) y (List.mem_append_left _ hy)
      rw [runV1, runV2, check_equivalent S hok hDS a t f hco.1 hco.2,
        ih S hrest hok hd]
    | store a t f r =>
      have hco : colonFreeB (sha256 a) = true ∧ colonFreeB t = true := by
        have hh := hops.1
        rw [opOkB, Bool.and_eq_true] at hh
        exact hh
      have hok2 : ∀ o ∈ (⟨sha256 a, t, f, r⟩ : SRec) :: S, SRecOkB o = true := by
        intro o ho
        rcases List.mem_cons.mp ho with h | h
        · rw [h, SRecOkB]
          simp [hco.1, hco.2]
        · exact hok o h
      simp only [storesOf] at hd
      have hd2 : Disc ((⟨sha256 a, t, f, r⟩ : SRec) :: S ++ storesOf rest) := by
        intro x hx y hy
        apply hd x ?_ y ?_
        · simp only [List.mem_append, List.mem_cons] at hx ⊢
          tauto
        · simp only [List.mem_append, List.mem_cons] at hy ⊢
          tauto
      rw [runV1, runV2]
      show runV1 (stV1 (⟨sha256 a, t, f, r⟩ :: S)) rest =
        runV2 (stV2 (⟨sha256 a, t, f, r⟩ :: S)) rest
      exact ih (⟨sha256 a, t, f, r⟩ :: S) hrest hok2 hd2

/-- C9 (amended): for every sequential history of raw middleware calls
from an empty store in which every store under one (caller, token) pair
uses a single fingerprint (the discipline the orchestrator maintains)
and the caller hashes and tokens are colon-free, the list-keys and the
fingerprint-record versions decide the same outcome (Hit with the same
cached response, Miss, or Conflict) at every check. -/
theorem middleware_versions_equivalent (ops : List IdemOp)
    (hwf : opsOkB ops = true) (hdisc : Disc (storesOf ops)) :
    runV1 [] ops = runV2 [] ops :=
  run_eq ops [] hwf (by intro o ho; exact absurd ho (by simp)) hdisc

def IdemOutcome.isConflictB : IdemOutcome → Bool
  | .conflict => true
  | _ => false

/-- A small concrete response for counterexample histories. -/
def c9resp (s : String) : ValidationResponse := .failure ⟨⟨s, s⟩, none, none⟩

/-- The divergent history: two stores with different fingerprints under
one token, then a check with the first fingerprint. -/
def c9hist : List IdemOp :=
  [.store "K" "tok" "f1" (c9resp "r1"), .store "K" "tok" "f2" (c9resp "r2"),
   .check "K" "tok" "f1"]

/-- C9 counterexample: on `c9hist` the list-keys version replays the
first stored response while the fingerprint-record version rejects with
a conflict, so the two versions do not decide the same outcome on every
raw history. -/
theorem middleware_divergence_counterexample :
    runV1 [] c9hist = [.hit (setIdem "tok" true (c9resp "r1"))] ∧
    runV2 [] c9hist = [.conflict] ∧
    (runV1 [] c9hist).map IdemOutcome.isConflictB = [false] ∧
    (runV2 [] c9hist).map IdemOutcome.isConflictB = [true] :=
  ⟨rfl, rfl, rfl, rfl⟩

/-- A disciplined history: one store, a matching check, a mismatching
check. -/
def c9histOk : List IdemOp :=
  [.store "K" "tok" "f1" (c9resp "r1"), .check "K" "tok" "f1", .check "K" "tok" "f2"]

/-- Witness for the amended C9 at a concrete disciplined history. -/
theorem middleware_versions_equivalent_witness :
    opsOkB c9histOk = true ∧ Disc (storesOf c9histOk) ∧
    runV1 [] c9histOk = runV2 [] c9histOk :=
  ⟨by decide, by unfold Disc; decide,
    middleware_versions_equivalent c9histOk (by decide) (by unfold Disc; decide)⟩
